import Mathlib

/-!
# Shader program / uniform binding layer

A shallow embedding of `engine/core/render/d3d11/d3d11_shader_program.cpp`:
reflection of the two shader stages into per-stage uniform descriptor maps,
sizing of the packed CPU mirrors, the bind-time update of the per-instance
device buffers, and the construction of the descriptor-set layout and of the
descriptor-set writes.

Conventions of the embedding.

* Objects the functions mutate (the program, a uniforms instance, the renderer
  singleton, a command buffer) are passed in and returned explicitly.
* Nullable pointers and native handles are `Option`s (`none` is the null
  pointer / `VK_NULL_HANDLE`).
* A step whose behaviour C++ leaves undefined (a copy outside a buffer, a read
  past the end of a value, a division by zero, a null dereference, a signed
  addition whose sum is not an `i32` value) makes the embedded function return
  `none`; so does a loop that cannot end by its condition becoming false (a
  vector asked to grow beyond every possible size ends the call in an exception).
* `i32` fields are integers; every place where the source converts machine
  integers is written with an explicit wrap (`wrapI32`, `toSizeT`, `toU32`).
* Collaborators that live outside this translation unit (the cross compiler,
  the SPIR-V reflection library, the type-mapping tables, the native device)
  are the fields of `Env`.
* The classes declared in headers that are not part of this source set
  (`Uniform`, `UniformsInstance`, `VKBuffer`, `VKTexture`) are written down from
  the way this file uses them; `size_t` is taken to be 64 bits wide and the
  byte order little-endian.
* `VKRenderer` records, in order, what the device has been asked to do, so that
  statements can speak about the calls a function makes.
-/

namespace Echo

/-! ## Machine integers -/

/-- A byte of uniform memory (`Byte`). -/
abbrev Byte := UInt8

/-- The value an `i32` holds after an integer `x` is stored into it (two's complement). -/
def wrapI32 (x : Int) : Int := (x + 2 ^ 31) % 2 ^ 32 - 2 ^ 31

/-- Conversion of an integer to `size_t` (64-bit), as the comparison
`uniformBytes.size() < bytes` and the length argument of `memcpy` perform it. -/
def toSizeT (x : Int) : Nat := (x % 2 ^ 64).toNat

/-- Conversion of an integer to `uint32_t` (the type of `dstBinding` and `binding`). -/
def toU32 (x : Int) : Nat := (x % 2 ^ 32).toNat

/-! ## Data model -/

/-- The two pipeline stages (`ShaderProgram::ShaderType`). -/
inductive ShaderType where
  | VS
  | FS
  deriving DecidableEq, Repr

/-- Numeric value of a stage, used as index into the per-stage arrays. -/
def ShaderType.index : ShaderType → Nat
  | .VS => 0
  | .FS => 1

/-- Semantic type of a uniform (`ShaderParamType`); the source of this file only
names `SPT_UNKNOWN` and `SPT_TEXTURE`. -/
inductive ShaderParamType where
  | SPT_UNKNOWN
  | SPT_INT
  | SPT_FLOAT
  | SPT_VEC2
  | SPT_VEC3
  | SPT_VEC4
  | SPT_MAT4
  | SPT_TEXTURE
  deriving DecidableEq, Repr

/-- One uniform descriptor (`ShaderProgram::Uniform`; `UniformNormal` and
`UniformTexture` differ only in their default value, see `Env.getValueDefault`). -/
structure Uniform where
  m_name : String
  m_shader : ShaderType
  m_type : ShaderParamType
  m_count : Int
  m_sizeInBytes : Int
  m_location : Int
  m_value : List Byte
  deriving DecidableEq, Repr

/-- A per-stage map from name to descriptor (`UniformMap`), listed in iteration order. -/
abbrev UniformMap := List (String × Uniform)

/-- The array of per-stage maps (`m_uniforms`), indexed by `ShaderType`. -/
structure UniformMaps where
  vs : UniformMap
  fs : UniformMap
  deriving DecidableEq, Repr

/-- Element access `m_uniforms[shaderType]`. -/
def UniformMaps.get (m : UniformMaps) : ShaderType → UniformMap
  | .VS => m.vs
  | .FS => m.fs

/-- The maps in the order of `for (UniformMap& uniformMap : m_uniforms)`. -/
def UniformMaps.toList (m : UniformMaps) : List UniformMap := [m.vs, m.fs]

/-- The call `m_uniforms.empty()`: the array of stage maps has a fixed, non-zero
number of elements, whatever the maps contain. -/
def UniformMaps.empty (m : UniformMaps) : Bool := m.toList.isEmpty

/-- Byte-wise lexicographic order on code units. -/
def lexLess : List Nat → List Nat → Bool
  | [], [] => false
  | [], _ :: _ => true
  | _ :: _, [] => false
  | a :: as, b :: bs => if a < b then true else if b < a then false else lexLess as bs

/-- The key order of the map (`std::less<String>`). -/
def stringLess (a b : String) : Bool :=
  lexLess (a.toList.map Char.toNat) (b.toList.map Char.toNat)

/-- The assignment `uniformMap[name] = desc`: replaces the descriptor stored under an
equal key, otherwise inserts at the key's place in the order. -/
def UniformMap.assign : UniformMap → String → Uniform → UniformMap
  | [], k, u => [(k, u)]
  | (k', u') :: rest, k, u =>
    if k = k' then (k', u) :: rest
    else if stringLess k k' then (k, u) :: (k', u') :: rest
    else (k', u') :: UniformMap.assign rest k u

/-- The assignment `m_uniforms[shaderType][name] = desc`. -/
def UniformMaps.assign (m : UniformMaps) (s : ShaderType) (k : String) (u : Uniform) :
    UniformMaps :=
  match s with
  | .VS => { m with vs := UniformMap.assign m.vs k u }
  | .FS => { m with fs := UniformMap.assign m.fs k u }

/-! ## Packed CPU mirrors: `allocUniformBytes` -/

/-- The loop `while (uniformBytes.size() < bytes) uniformBytes.emplace_back(0)`,
with a bound on the number of iterations. -/
def pushZeros : Nat → List Byte → Nat → List Byte
  | 0, uniformBytes, _ => uniformBytes
  | fuel + 1, uniformBytes, bytes =>
    if uniformBytes.length < bytes then pushZeros fuel (uniformBytes ++ [0]) bytes
    else uniformBytes

/-- The same loop run with as many iterations as it can need; `bytes` is the `i32`
of the source, converted to `size_t` by the comparison. A negative `bytes` converts
to a `size_t` of at least 2^64 - 2^31, a size no vector can reach: the condition
never becomes false, `emplace_back` ends the call in an exception and the function
does not return, `none`. -/
def growTo (uniformBytes : List Byte) (bytes : Int) : Option (List Byte) :=
  if bytes < 0 then none
  else some (pushZeros (toSizeT bytes - uniformBytes.length) uniformBytes (toSizeT bytes))

/-- The sum of two `i32` values stored in an `i32`; `none` when the sum is not an `i32`
value (signed overflow is undefined). -/
def addI32 (a b : Int) : Option Int :=
  if -2 ^ 31 ≤ a + b ∧ a + b < 2 ^ 31 then some (a + b) else none

/-- The pair of mirrors `(m_vertexShaderUniformBytes, m_fragmentShaderUniformBytes)`. -/
structure UniformBytes where
  vertex : List Byte
  fragment : List Byte
  deriving DecidableEq, Repr

/-- The mirror selected by `uniform->m_shader == ShaderType::VS ? ... : ...`. -/
def UniformBytes.get (b : UniformBytes) : ShaderType → List Byte
  | .VS => b.vertex
  | .FS => b.fragment

/-- Store through the reference selected by `m_shader`. -/
def UniformBytes.set (b : UniformBytes) (s : ShaderType) (v : List Byte) : UniformBytes :=
  match s with
  | .VS => { b with vertex := v }
  | .FS => { b with fragment := v }

/-- Body of the inner loop of `allocUniformBytes` for one descriptor: `none` when the
sum `m_location + m_sizeInBytes` overflows the `i32` it is stored in, or is negative
(the growing loop then does not return). -/
def allocUniform (b : UniformBytes) (uniform : Uniform) : Option UniformBytes :=
  let uniformBytes := b.get uniform.m_shader
  (addI32 uniform.m_location uniform.m_sizeInBytes).bind
    (fun bytes =>
      (growTo uniformBytes bytes).map (fun uniformBytes => b.set uniform.m_shader uniformBytes))

/-- The two nested loops of `allocUniformBytes`, started from cleared mirrors. -/
def allocBytes (m : UniformMaps) : Option UniformBytes :=
  m.toList.foldlM
    (fun b uniformMap => uniformMap.foldlM (fun b it => allocUniform b it.2) b)
    { vertex := [], fragment := [] }

/-! ## Reflection library, native objects and external collaborators -/

/-- The base types of `spirv_cross::SPIRType` that matter here. -/
inductive BaseType where
  | Unknown
  | Boolean
  | Int
  | UInt
  | Float
  | Struct
  | Image
  | SampledImage
  | Sampler
  deriving DecidableEq, Repr

/-- The part of `spirv_cross::SPIRType` the program reads. -/
structure SPIRType where
  self : Nat
  basetype : BaseType
  member_types : List Nat
  deriving DecidableEq, Repr

/-- A reflected resource (`spirv_cross::Resource`). -/
structure Resource where
  id : Nat
  base_type_id : Nat
  name : String
  deriving DecidableEq, Repr

/-- The resource lists of one module (`spirv_cross::ShaderResources`). -/
structure ShaderResources where
  uniform_buffers : List Resource
  sampled_images : List Resource
  deriving DecidableEq, Repr

/-- The reflection view of one SPIR-V module (`spirv_cross::Compiler`); each field is
the query of the same name, with the unsigned result types of the library. -/
structure Compiler where
  get_shader_resources : ShaderResources
  get_type : Nat → SPIRType
  get_decoration_binding : Nat → Nat
  get_member_name : Nat → Nat → String
  get_declared_struct_member_size : SPIRType → Nat → Nat
  type_struct_member_offset : SPIRType → Nat → Nat

/-- Native descriptor kinds used by this file. -/
inductive DescriptorType where
  | UNIFORM_BUFFER
  | COMBINED_IMAGE_SAMPLER
  deriving DecidableEq, Repr

/-- Stage flags of a layout binding. -/
inductive StageFlag where
  | VERTEX_BIT
  | FRAGMENT_BIT
  deriving DecidableEq, Repr

/-- One entry of `m_layoutBindings` (`VkDescriptorSetLayoutBinding`). -/
structure LayoutBinding where
  binding : Nat
  descriptorType : DescriptorType
  descriptorCount : Nat
  stageFlags : StageFlag
  deriving DecidableEq, Repr

/-- The buffer info a uniform-buffer write points at (`VkDescriptorBufferInfo`). -/
structure BufferInfo where
  buffer : Option Nat
  offset : Nat
  range : Nat
  deriving DecidableEq, Repr

/-- One descriptor-set write (`VkWriteDescriptorSet`). The pointer `pBufferInfo`
is the index of the element of `m_vkShaderUniformBufferDescriptors` it addresses
together with that element. -/
structure WriteDescriptorSet where
  dstSet : Option Nat
  dstBinding : Nat
  dstArrayElement : Nat
  descriptorCount : Nat
  descriptorType : DescriptorType
  pImageInfo : Option Nat
  pBufferInfo : Option (Nat × BufferInfo)
  deriving DecidableEq, Repr

/-- One entry of `m_vkShaderStagesCreateInfo`. -/
structure StageCreateInfo where
  stage : StageFlag
  module : Option Nat
  pName : String
  deriving DecidableEq, Repr

/-- What the renderer singleton and the device have been asked to do, in order. The
entry `parseUniforms` marks a run of the reflection pass. -/
inductive Event where
  | vkCreateShaderModule (code : List Nat)
  | parseUniforms
  | vkCreateDescriptorSetLayout (bindings : List LayoutBinding)
  | vkCreatePipelineLayout (setLayout : Option Nat)
  | newVKBuffer (size : Nat)
  | vkAllocateDescriptorSets (setLayout : Option Nat)
  | vkUpdateDescriptorSets (writes : List WriteDescriptorSet)
  deriving DecidableEq, Repr

/-- The observable state of `Renderer::instance()`: the calls made so far and the
messages passed to the error log. -/
structure VKRenderer where
  events : List Event
  errors : List String
  deriving DecidableEq, Repr

/-- Record a call. -/
def VKRenderer.emit (r : VKRenderer) (e : Event) : VKRenderer :=
  { r with events := r.events ++ [e] }

/-- The macro call `EchoLogError(msg)`. -/
def VKRenderer.logError (r : VKRenderer) (msg : String) : VKRenderer :=
  { r with errors := r.errors ++ [msg] }

/-- A command recorded into a `VkCommandBuffer`. -/
inductive Command where
  | vkCmdBindDescriptorSets (layout : Option Nat) (descriptorSet : Option Nat)
  deriving DecidableEq, Repr

/-- A texture of the renderer (`VKTexture`), seen through
`getVkDescriptorImageInfo()`. -/
structure VKTexture where
  getVkDescriptorImageInfo : Option Nat
  deriving DecidableEq, Repr

/-- Modelled from the spec: the class `VKBuffer` (vk_gpu_buffer, not part of this
source set), "the device-visible uniform buffer objects": a native handle, the
allocated size reported by `getSize()` and the uploaded contents. -/
structure VKBuffer where
  getVkBuffer : Option Nat
  getSize : Nat
  contents : List Byte
  deriving DecidableEq, Repr

/-- Modelled from the spec: `VKBuffer::updateData`, "upload the current CPU mirror
bytes into the device buffers". -/
def VKBuffer.updateData (b : VKBuffer) (buff : List Byte) : VKBuffer :=
  { b with contents := buff }

/-- The collaborators outside this translation unit. Native calls may depend on
everything the device has been asked before (`List Event`). -/
structure Env where
  /-- The call `GLSLCrossCompiler::getSPIRV` after `setInput(vsSrc, psSrc, nullptr)`. -/
  getSPIRV : String → String → ShaderType → List Nat
  /-- The constructor `spirv_cross::Compiler(spirv)`. -/
  reflect : List Nat → Compiler
  /-- The table `VKMapping::mapUniformType`. -/
  mapUniformType : SPIRType → ShaderParamType
  /-- The table `mapUniformTypeSize`. -/
  mapUniformTypeSize : ShaderParamType → Int
  /-- The virtual method `Uniform::getValueDefault()`. -/
  getValueDefault : Uniform → List Byte
  /-- The native call of this name: the module handle on `VK_SUCCESS`. -/
  vkCreateShaderModule : List Event → List Nat → Option Nat
  /-- The native call of this name: the layout handle written by the call. -/
  vkCreateDescriptorSetLayout : List Event → List LayoutBinding → Option Nat
  /-- The native call of this name: the layout handle written by the call. -/
  vkCreatePipelineLayout : List Event → Option Nat → Option Nat
  /-- The native call of this name: the set handle on `VK_SUCCESS`. -/
  vkAllocateDescriptorSets : List Event → Option Nat → Option Nat
  /-- The native buffer behind a new `VKBuffer` of the given size. -/
  vkCreateBuffer : List Event → Nat → Option Nat
  /-- The lookup `VKRenderer::getTexture(textureIdx)`. -/
  getTexture : Int → Option VKTexture

/-- The array `m_vkShaderUniformBufferDescriptors`, indexed by `ShaderType`. -/
structure BufferInfos where
  vs : BufferInfo
  fs : BufferInfo
  deriving DecidableEq, Repr

/-- The elements of the array in index order. -/
def BufferInfos.toList (d : BufferInfos) : List BufferInfo := [d.vs, d.fs]

/-- The per-consumer binding context (`UniformsInstance`). -/
structure UniformsInstance where
  m_vkDescriptorSet : Option Nat
  m_vkVertexShaderUniformBuffer : Option VKBuffer
  m_vkFragmentShaderUniformBuffer : Option VKBuffer
  m_vkShaderUniformBufferDescriptors : BufferInfos
  deriving DecidableEq, Repr

/-- The program object (`D3D11ShaderProgram`). -/
structure D3D11ShaderProgram where
  m_isLinked : Bool
  m_vkVertexShader : Option Nat
  m_vkFragmentShader : Option Nat
  m_vertexShaderCompiler : Option Compiler
  m_fragmentShaderCompiler : Option Compiler
  m_vkShaderStagesCreateInfo : List StageCreateInfo
  m_uniforms : UniformMaps
  m_vertexShaderUniformBytes : List Byte
  m_fragmentShaderUniformBytes : List Byte
  m_layoutBindings : List LayoutBinding
  m_vkDescriptorSetLayout : Option Nat
  m_vkPipelineLayout : Option Nat

/-- The two mirrors of a program as a pair. -/
def D3D11ShaderProgram.uniformBytes (p : D3D11ShaderProgram) : UniformBytes :=
  { vertex := p.m_vertexShaderUniformBytes, fragment := p.m_fragmentShaderUniformBytes }

/-- Store both mirrors. -/
def D3D11ShaderProgram.setUniformBytes (p : D3D11ShaderProgram) (b : UniformBytes) :
    D3D11ShaderProgram :=
  { p with m_vertexShaderUniformBytes := b.vertex, m_fragmentShaderUniformBytes := b.fragment }

/-- The method `D3D11ShaderProgram::allocUniformBytes`. -/
def allocUniformBytes (p : D3D11ShaderProgram) : Option D3D11ShaderProgram :=
  (allocBytes p.m_uniforms).map p.setUniformBytes

/-! ## Linking: `createShader`, `createShaderProgram`, reflection -/

/-- The static function `createShader`. The result carries the returned flag and the
values left in the reference parameters `vkShader` and `shaderCompiler`. -/
def createShader (env : Env) (r : VKRenderer) (spirv : List Nat) (vkShader : Option Nat)
    (shaderCompiler : Option Compiler) : Bool × Option Nat × Option Compiler × VKRenderer :=
  if ¬ spirv.isEmpty then
    let shaderCompiler := some (env.reflect spirv)
    match env.vkCreateShaderModule r.events spirv with
    | some h => (true, some h, shaderCompiler, r.emit (.vkCreateShaderModule spirv))
    | none =>
      (false, vkShader, shaderCompiler,
        (r.emit (.vkCreateShaderModule spirv)).logError "Vulkan create shader failed")
  else
    (false, vkShader, shaderCompiler, r.logError "Vulkan create shader failed")

/-- The compiler selected by `shaderType == ShaderType::VS ? ... : ...`. -/
def D3D11ShaderProgram.compiler (p : D3D11ShaderProgram) : ShaderType → Option Compiler
  | .VS => p.m_vertexShaderCompiler
  | .FS => p.m_fragmentShaderCompiler

/-- The descriptor built for member `i` of a uniform block; `none` when the element
size of its type is zero (the division is then undefined). -/
def memberUniform (env : Env) (compiler : Compiler) (type : SPIRType) (shaderType : ShaderType)
    (i : Nat) (memberType : Nat) : Option Uniform :=
  let m_sizeInBytes := wrapI32 (compiler.get_declared_struct_member_size type i)
  let m_type := env.mapUniformType (compiler.get_type memberType)
  if env.mapUniformTypeSize m_type = 0 then none
  else
    some
      { m_name := compiler.get_member_name type.self i
        m_shader := shaderType
        m_sizeInBytes := m_sizeInBytes
        m_type := m_type
        m_count := wrapI32 (Int.tdiv m_sizeInBytes (env.mapUniformTypeSize m_type))
        m_location := wrapI32 (compiler.type_struct_member_offset type i)
        m_value := [] }

/-- The descriptor built for a sampled-image resource. -/
def textureUniform (env : Env) (compiler : Compiler) (type : SPIRType) (resource : Resource)
    (shaderType : ShaderType) : Uniform :=
  { m_name := resource.name
    m_shader := shaderType
    m_type := env.mapUniformType type
    m_count := 1
    m_sizeInBytes := 4
    m_location := wrapI32 (compiler.get_decoration_binding resource.id)
    m_value := [] }

/-- The method `D3D11ShaderProgram::addUniform`, acting on `m_uniforms`. -/
def addUniform (env : Env) (p : D3D11ShaderProgram) (m : UniformMaps) (resource : Resource)
    (shaderType : ShaderType) : Option UniformMaps :=
  match p.compiler shaderType with
  | none => none
  | some compiler =>
    let type := compiler.get_type resource.base_type_id
    if type.basetype = BaseType.SampledImage then
      let desc := textureUniform env compiler type resource shaderType
      some (m.assign shaderType desc.m_name desc)
    else
      type.member_types.enum.foldlM
        (fun m im =>
          (memberUniform env compiler type shaderType im.1 im.2).map
            (fun desc => m.assign shaderType desc.m_name desc))
        m

/-- The call `uniformMap.clear()`. -/
def UniformMap.clear (_ : UniformMap) : UniformMap := []

/-- The loop `for (UniformMap& uniformMap : m_uniforms) uniformMap.clear()`. -/
def UniformMaps.clear (m : UniformMaps) : UniformMaps :=
  { vs := UniformMap.clear m.vs, fs := UniformMap.clear m.fs }

/-- The descriptor maps `parseUniforms` builds: cleared, then filled from the vertex
uniform buffers, the fragment uniform buffers and the fragment sampled images. -/
def reflectUniforms (env : Env) (p : D3D11ShaderProgram) : Option UniformMaps :=
  match p.m_vertexShaderCompiler, p.m_fragmentShaderCompiler with
  | some vsCompiler, some fsCompiler =>
    let vsResources := vsCompiler.get_shader_resources
    let fsResources := fsCompiler.get_shader_resources
    (vsResources.uniform_buffers.foldlM (fun m res => addUniform env p m res .VS)
        (UniformMaps.clear p.m_uniforms)).bind
      (fun m =>
        (fsResources.uniform_buffers.foldlM (fun m res => addUniform env p m res .FS) m).bind
          (fun m => fsResources.sampled_images.foldlM (fun m res => addUniform env p m res .FS) m))
  | _, _ => none

/-- The method `D3D11ShaderProgram::parseUniforms`; the flag is its return value. -/
def parseUniforms (env : Env) (r : VKRenderer) (p : D3D11ShaderProgram) :
    Option (Bool × D3D11ShaderProgram × VKRenderer) :=
  (reflectUniforms env p).bind
    (fun m =>
      (allocUniformBytes { p with m_uniforms := m }).map
        (fun p => (! p.m_uniforms.empty, p, r.emit .parseUniforms)))

/-! ## Descriptor-set layout and pipeline layout -/

/-- The lambda `isHaveNormalUniform`. -/
def isHaveNormalUniform (uniformMap : UniformMap) : Bool :=
  uniformMap.any (fun it => it.2.m_type != ShaderParamType.SPT_TEXTURE)

/-- The uniform-buffer binding pushed for a stage. -/
def uboLayoutBinding (binding : Nat) (stageFlags : StageFlag) : LayoutBinding :=
  { binding := binding, descriptorType := .UNIFORM_BUFFER, descriptorCount := 1,
    stageFlags := stageFlags }

/-- The sampler binding pushed for a texture descriptor. -/
def samplerLayoutBinding (uniform : Uniform) : LayoutBinding :=
  { binding := toU32 uniform.m_location
    descriptorType := .COMBINED_IMAGE_SAMPLER
    descriptorCount := 1
    stageFlags := if uniform.m_shader = ShaderType.VS then .VERTEX_BIT else .FRAGMENT_BIT }

/-- The list `m_layoutBindings` as `createVkDescriptorSetLayout` fills it. -/
def layoutBindings (m : UniformMaps) : List LayoutBinding :=
  let b : List LayoutBinding := []
  let b := if isHaveNormalUniform (m.get .VS) then b ++ [uboLayoutBinding 0 .VERTEX_BIT] else b
  let b := if isHaveNormalUniform (m.get .FS) then b ++ [uboLayoutBinding 1 .FRAGMENT_BIT] else b
  m.toList.foldl
    (fun b uniformMap =>
      uniformMap.foldl
        (fun b it =>
          if it.2.m_type = ShaderParamType.SPT_TEXTURE then b ++ [samplerLayoutBinding it.2] else b)
        b)
    b

/-- The method `D3D11ShaderProgram::createVkDescriptorSetLayout`. -/
def createVkDescriptorSetLayout (env : Env) (r : VKRenderer) (p : D3D11ShaderProgram) :
    D3D11ShaderProgram × VKRenderer :=
  let bindings := layoutBindings p.m_uniforms
  ({ p with
      m_layoutBindings := bindings
      m_vkDescriptorSetLayout := env.vkCreateDescriptorSetLayout r.events bindings },
    r.emit (.vkCreateDescriptorSetLayout bindings))

/-- The method `D3D11ShaderProgram::createVkPipelineLayout`. -/
def createVkPipelineLayout (env : Env) (r : VKRenderer) (p : D3D11ShaderProgram) :
    D3D11ShaderProgram × VKRenderer :=
  ({ p with m_vkPipelineLayout := env.vkCreatePipelineLayout r.events p.m_vkDescriptorSetLayout },
    r.emit (.vkCreatePipelineLayout p.m_vkDescriptorSetLayout))

/-- The method `D3D11ShaderProgram::createShaderProgram`; the flag is its return value. -/
def createShaderProgram (env : Env) (r : VKRenderer) (p : D3D11ShaderProgram)
    (vsSrc psSrc : String) : Option (Bool × D3D11ShaderProgram × VKRenderer) :=
  let vs := createShader env r (env.getSPIRV vsSrc psSrc .VS) p.m_vkVertexShader
    p.m_vertexShaderCompiler
  let fs := createShader env vs.2.2.2 (env.getSPIRV vsSrc psSrc .FS) p.m_vkFragmentShader
    p.m_fragmentShaderCompiler
  let isCreateVSSucceed := vs.1
  let isCreateFSSucceed := fs.1
  let p : D3D11ShaderProgram :=
    { p with
      m_vkVertexShader := vs.2.1
      m_vertexShaderCompiler := vs.2.2.1
      m_vkFragmentShader := fs.2.1
      m_fragmentShaderCompiler := fs.2.2.1
      m_isLinked := isCreateVSSucceed && isCreateFSSucceed }
  let r := fs.2.2.2
  if p.m_isLinked then
    let p : D3D11ShaderProgram :=
      { p with
        m_vkShaderStagesCreateInfo :=
          [ { stage := .VERTEX_BIT, module := p.m_vkVertexShader, pName := "main" },
            { stage := .FRAGMENT_BIT, module := p.m_vkFragmentShader, pName := "main" } ] }
    match parseUniforms env r p with
    | none => none
    | some (parsed, p, r) =>
      if parsed then
        let pr := createVkDescriptorSetLayout env r p
        let pr := createVkPipelineLayout env pr.2 pr.1
        some (pr.1.m_isLinked, pr.1, pr.2)
      else
        some (p.m_isLinked, p, r)
  else
    some (p.m_isLinked, p, r)

/-! ## Bind time: device buffers, descriptor-set writes, `bindUniforms` -/

/-- Modelled from the spec: `Uniform::getValue()` (declared with the uniform classes,
not part of this source set), the "current runtime data for a descriptor", which
"starts at a type-specific default"; the same selection as the one written out in
`updateVkUniformBuffer`. -/
def getValue (env : Env) (uniform : Uniform) : List Byte :=
  if uniform.m_value.isEmpty then env.getValueDefault uniform else uniform.m_value

/-- The call `std::memcpy(dst.data() + offset, src.data(), n)`; `none` when the copy
leaves the destination or reads past the end of the source. -/
def memcpy (dst : List Byte) (offset : Int) (src : List Byte) (n : Nat) : Option (List Byte) :=
  if 0 ≤ offset ∧ offset.toNat + n ≤ dst.length ∧ n ≤ src.length then
    some (dst.take offset.toNat ++ src.take n ++ dst.drop (offset.toNat + n))
  else none

/-- Body of the inner loop of `updateVkUniformBuffer` for one descriptor. A vector
without elements has a null `data()`. -/
def organizeUniform (env : Env) (b : UniformBytes) (uniform : Uniform) : Option UniformBytes :=
  let value := if uniform.m_value.isEmpty then env.getValueDefault uniform else uniform.m_value
  if value ≠ [] ∧ uniform.m_type ≠ ShaderParamType.SPT_UNKNOWN then
    let uniformBytes := b.get uniform.m_shader
    if uniform.m_type ≠ ShaderParamType.SPT_TEXTURE then
      (memcpy uniformBytes uniform.m_location value (toSizeT uniform.m_sizeInBytes)).map
        (b.set uniform.m_shader)
    else some b
  else some b

/-- The two nested loops of `updateVkUniformBuffer` ("organize uniform bytes"). -/
def organizeUniformBytes (env : Env) (m : UniformMaps) (b : UniformBytes) : Option UniformBytes :=
  m.toList.foldlM
    (fun b uniformMap => uniformMap.foldlM (fun b it => organizeUniform env b it.2) b)
    b

/-- Modelled from the spec: construction of a `VKBuffer` from a `Buffer(size, data)`:
"(re)allocate ... device buffers from the current mirror contents". -/
def newVKBuffer (env : Env) (r : VKRenderer) (buff : List Byte) : VKBuffer × VKRenderer :=
  ({ getVkBuffer := env.vkCreateBuffer r.events buff.length
     getSize := buff.length
     contents := buff },
    r.emit (.newVKBuffer buff.length))

/-- The method `D3D11ShaderProgram::createVkUniformBuffer`. -/
def createVkUniformBuffer (env : Env) (r : VKRenderer) (p : D3D11ShaderProgram)
    (uniformsInstance : UniformsInstance) : UniformsInstance × VKRenderer :=
  let vert := newVKBuffer env r p.m_vertexShaderUniformBytes
  let frag := newVKBuffer env vert.2 p.m_fragmentShaderUniformBytes
  ({ uniformsInstance with
      m_vkVertexShaderUniformBuffer := some vert.1
      m_vkFragmentShaderUniformBuffer := some frag.1
      m_vkShaderUniformBufferDescriptors :=
        { vs := { buffer := vert.1.getVkBuffer, offset := 0, range := vert.1.getSize }
          fs := { buffer := frag.1.getVkBuffer, offset := 0, range := frag.1.getSize } } },
    frag.2)

/-- The method `D3D11ShaderProgram::createVkDescriptorSet`. -/
def createVkDescriptorSet (env : Env) (r : VKRenderer) (p : D3D11ShaderProgram)
    (uniformsInstance : UniformsInstance) : UniformsInstance × VKRenderer :=
  let result := env.vkAllocateDescriptorSets r.events p.m_vkDescriptorSetLayout
  let r := r.emit (.vkAllocateDescriptorSets p.m_vkDescriptorSetLayout)
  ({ uniformsInstance with m_vkDescriptorSet := result },
    if result.isSome then r else r.logError "vulkan set descriptor set failed.")

/-- The condition of the `if` in `updateVkUniformBuffer` that guards reallocation. -/
def needsRealloc (p : D3D11ShaderProgram) (uniformsInstance : UniformsInstance) : Bool :=
  match uniformsInstance.m_vkVertexShaderUniformBuffer,
    uniformsInstance.m_vkFragmentShaderUniformBuffer with
  | some vb, some fb =>
    vb.getSize != p.m_vertexShaderUniformBytes.length ||
      fb.getSize != p.m_fragmentShaderUniformBytes.length
  | _, _ => true

/-- The part of `updateVkUniformBuffer` after the mirrors are organized: conditional
reallocation, then the two unconditional uploads. -/
def ensureAndUpload (env : Env) (r : VKRenderer) (p : D3D11ShaderProgram)
    (uniformsInstance : UniformsInstance) : Option (UniformsInstance × VKRenderer) :=
  let ir :=
    if needsRealloc p uniformsInstance then
      let ir := createVkUniformBuffer env r p uniformsInstance
      createVkDescriptorSet env ir.2 p ir.1
    else (uniformsInstance, r)
  match ir.1.m_vkVertexShaderUniformBuffer, ir.1.m_vkFragmentShaderUniformBuffer with
  | some vb, some fb =>
    some
      ({ ir.1 with
          m_vkVertexShaderUniformBuffer := some (vb.updateData p.m_vertexShaderUniformBytes)
          m_vkFragmentShaderUniformBuffer := some (fb.updateData p.m_fragmentShaderUniformBytes) },
        ir.2)
  | _, _ => none

/-- The method `D3D11ShaderProgram::updateVkUniformBuffer`. -/
def updateVkUniformBuffer (env : Env) (r : VKRenderer) (p : D3D11ShaderProgram)
    (uniformsInstance : UniformsInstance) :
    Option (D3D11ShaderProgram × UniformsInstance × VKRenderer) :=
  if ¬ p.m_isLinked then some (p, uniformsInstance, r)
  else
    (organizeUniformBytes env p.m_uniforms p.uniformBytes).bind
      (fun b =>
        let p := p.setUniformBytes b
        (ensureAndUpload env r p uniformsInstance).map (fun ir => (p, ir.1, ir.2)))

/-- The read `*(i32*)(bytes.data())` (little-endian); `none` when fewer than four
bytes are stored. -/
def readI32 : List Byte → Option Int
  | b0 :: b1 :: b2 :: b3 :: _ =>
    some (wrapI32 (b0.toNat + 256 * b1.toNat + 65536 * b2.toNat + 16777216 * b3.toNat))
  | _ => none

/-- The write pushed for element `i` of the buffer descriptors. -/
def uniformBufferWrite (uniformsInstance : UniformsInstance) (i : Nat) (info : BufferInfo) :
    WriteDescriptorSet :=
  { dstSet := uniformsInstance.m_vkDescriptorSet
    dstBinding := i
    dstArrayElement := 0
    descriptorCount := 1
    descriptorType := .UNIFORM_BUFFER
    pImageInfo := none
    pBufferInfo := some (i, info) }

/-- The write pushed for a texture descriptor whose texture has image info. -/
def textureWrite (uniformsInstance : UniformsInstance) (uniform : Uniform) (imageInfo : Nat) :
    WriteDescriptorSet :=
  { dstSet := uniformsInstance.m_vkDescriptorSet
    dstBinding := toU32 uniform.m_location
    dstArrayElement := 0
    descriptorCount := 1
    descriptorType := .COMBINED_IMAGE_SAMPLER
    pImageInfo := some imageInfo
    pBufferInfo := none }

/-- First loop of `updateDescriptorSet`: one write per element of the buffer
descriptors whose `buffer` is not null. -/
def uniformBufferWrites (uniformsInstance : UniformsInstance) : List WriteDescriptorSet :=
  uniformsInstance.m_vkShaderUniformBufferDescriptors.toList.enum.foldl
    (fun writeDescriptorSets ii =>
      if ii.2.buffer.isSome then
        writeDescriptorSets ++ [uniformBufferWrite uniformsInstance ii.1 ii.2]
      else writeDescriptorSets)
    []

/-- The image info a texture descriptor resolves to: `none` when the read of the
index is undefined, `some none` when the texture or its image info is missing. -/
def resolveTexture (env : Env) (uniform : Uniform) : Option (Option Nat) :=
  (readI32 (getValue env uniform)).map
    (fun textureIdx =>
      match env.getTexture textureIdx with
      | some texture => texture.getVkDescriptorImageInfo
      | none => none)

/-- Body of the inner loop of the second part of `updateDescriptorSet`. The state is
the list of writes and the renderer (for the error log). -/
def textureStep (env : Env) (uniformsInstance : UniformsInstance)
    (st : List WriteDescriptorSet × VKRenderer) (uniform : Uniform) :
    Option (List WriteDescriptorSet × VKRenderer) :=
  if uniform.m_type = ShaderParamType.SPT_TEXTURE then
    match resolveTexture env uniform with
    | none => none
    | some (some imageInfo) => some (st.1 ++ [textureWrite uniformsInstance uniform imageInfo], st.2)
    | some none =>
      some (st.1, st.2.logError "vulkan write descriptor set have empty image info.")
  else some st

/-- The write list `updateDescriptorSet` builds, and the renderer after the loops. -/
def buildWrites (env : Env) (r : VKRenderer) (p : D3D11ShaderProgram)
    (uniformsInstance : UniformsInstance) : Option (List WriteDescriptorSet × VKRenderer) :=
  p.m_uniforms.toList.foldlM
    (fun st uniformMap => uniformMap.foldlM (fun st it => textureStep env uniformsInstance st it.2) st)
    (uniformBufferWrites uniformsInstance, r)

/-- The method `D3D11ShaderProgram::updateDescriptorSet`. -/
def updateDescriptorSet (env : Env) (r : VKRenderer) (p : D3D11ShaderProgram)
    (uniformsInstance : UniformsInstance) : Option VKRenderer :=
  (buildWrites env r p uniformsInstance).map (fun wr => wr.2.emit (.vkUpdateDescriptorSets wr.1))

/-- The method `D3D11ShaderProgram::bindUniforms`. -/
def bindUniforms (env : Env) (r : VKRenderer) (p : D3D11ShaderProgram)
    (vkCommandbuffer : List Command) (uniformsInstance : UniformsInstance) :
    Option (D3D11ShaderProgram × UniformsInstance × List Command × VKRenderer) :=
  (updateVkUniformBuffer env r p uniformsInstance).bind
    (fun pir =>
      (updateDescriptorSet env pir.2.2 pir.1 pir.2.1).map
        (fun r =>
          (pir.1, pir.2.1,
            vkCommandbuffer ++
              [Command.vkCmdBindDescriptorSets pir.1.m_vkPipelineLayout pir.2.1.m_vkDescriptorSet],
            r)))

/-! ## Predicates and views used in the statements -/

/-- The copy in `updateVkUniformBuffer` is performed for this descriptor: it has a
value, a known type, and is not a texture. -/
def copies (env : Env) (uniform : Uniform) : Prop :=
  getValue env uniform ≠ [] ∧ uniform.m_type ≠ ShaderParamType.SPT_UNKNOWN ∧
    uniform.m_type ≠ ShaderParamType.SPT_TEXTURE

instance (env : Env) (uniform : Uniform) : Decidable (copies env uniform) := by
  unfold copies; infer_instance

/-- The copy for this descriptor stays inside the mirror of its stage and inside
its value: location and size are non-negative `i32`s, the range
`[location, location + size)` lies in the mirror, and the value holds at least
`size` bytes. -/
def copyInBounds (env : Env) (b : UniformBytes) (uniform : Uniform) : Prop :=
  0 ≤ uniform.m_location ∧ 0 ≤ uniform.m_sizeInBytes ∧ uniform.m_sizeInBytes < 2 ^ 31 ∧
    uniform.m_location + uniform.m_sizeInBytes ≤ (b.get uniform.m_shader).length ∧
    uniform.m_sizeInBytes ≤ (getValue env uniform).length

instance (env : Env) (b : UniformBytes) (uniform : Uniform) :
    Decidable (copyInBounds env b uniform) := by
  unfold copyInBounds; infer_instance

/-- Every copy `updateVkUniformBuffer` performs is in bounds. -/
def CopiesInBounds (env : Env) (m : UniformMaps) (b : UniformBytes) : Prop :=
  ∀ it ∈ m.vs ++ m.fs, copies env it.2 → copyInBounds env b it.2

instance (env : Env) (m : UniformMaps) (b : UniformBytes) :
    Decidable (CopiesInBounds env m b) := by
  unfold CopiesInBounds; infer_instance

/-- The bytes of a mirror at `[location, location + size)`. -/
def byteRange (bytes : List Byte) (location size : Int) : List Byte :=
  (bytes.drop location.toNat).take size.toNat

/-- Both mirrors keep their lengths. -/
def UniformBytes.sameLengths (b c : UniformBytes) : Prop :=
  c.vertex.length = b.vertex.length ∧ c.fragment.length = b.fragment.length

/-- The descriptor `d` does not write into `[location, location + size)` of the
mirror of stage `s`. -/
def apartFrom (env : Env) (s : ShaderType) (location size : Int) (d : Uniform) : Prop :=
  copies env d → d.m_shader = s →
    d.m_location + d.m_sizeInBytes ≤ location ∨ location + size ≤ d.m_location

instance (env : Env) (s : ShaderType) (location size : Int) (d : Uniform) :
    Decidable (apartFrom env s location size d) := by
  unfold apartFrom; infer_instance

/-- The device buffer of a stage held by an instance. -/
def UniformsInstance.buffer (uniformsInstance : UniformsInstance) : ShaderType → Option VKBuffer
  | .VS => uniformsInstance.m_vkVertexShaderUniformBuffer
  | .FS => uniformsInstance.m_vkFragmentShaderUniformBuffer

/-- The instance lacks the buffer of stage `s`, or its allocated size differs from
the length of the mirror of that stage. -/
def lacksOrMismatch (p : D3D11ShaderProgram) (uniformsInstance : UniformsInstance)
    (s : ShaderType) : Prop :=
  (uniformsInstance.buffer s).map VKBuffer.getSize ≠ some (p.uniformBytes.get s).length

instance (p : D3D11ShaderProgram) (uniformsInstance : UniformsInstance) (s : ShaderType) :
    Decidable (lacksOrMismatch p uniformsInstance s) := by
  unfold lacksOrMismatch; infer_instance

/-- The events that allocate a device object for an instance. -/
def Event.isAllocation : Event → Bool
  | .newVKBuffer _ => true
  | .vkAllocateDescriptorSets _ => true
  | _ => false

/-- The allocation counter: how many device buffers and descriptor sets have been
allocated so far. -/
def allocationCount (r : VKRenderer) : Nat := r.events.countP Event.isAllocation

/-- The events a reallocation adds. -/
def reallocEvents (p : D3D11ShaderProgram) : List Event :=
  [Event.newVKBuffer p.m_vertexShaderUniformBytes.length,
    Event.newVKBuffer p.m_fragmentShaderUniformBytes.length,
    Event.vkAllocateDescriptorSets p.m_vkDescriptorSetLayout]

/-- The program with the compilers `createShader` installs for the given bytecode. -/
def withCompilers (env : Env) (p : D3D11ShaderProgram) (vs fs : List Nat) : D3D11ShaderProgram :=
  { p with
    m_vertexShaderCompiler := some (env.reflect vs)
    m_fragmentShaderCompiler := some (env.reflect fs) }

/-- Both stages have bytecode and both shader modules are created. -/
def bothShadersCreated (env : Env) (r : VKRenderer) (vs fs : List Nat) : Prop :=
  vs ≠ [] ∧ fs ≠ [] ∧ (env.vkCreateShaderModule r.events vs).isSome ∧
    (env.vkCreateShaderModule (r.events ++ [Event.vkCreateShaderModule vs]) fs).isSome

instance (env : Env) (r : VKRenderer) (vs fs : List Nat) :
    Decidable (bothShadersCreated env r vs fs) := by
  unfold bothShadersCreated; infer_instance

/-- The texture descriptors of a list of map entries, in iteration order. -/
def texturesOf (l : List (String × Uniform)) : List Uniform :=
  (l.map Prod.snd).filter (fun u => u.m_type = ShaderParamType.SPT_TEXTURE)

/-- The texture descriptors of both maps, in iteration order. -/
def textureUniforms (m : UniformMaps) : List Uniform := texturesOf (m.vs ++ m.fs)

/-- The descriptor's texture resolves to a texture with image info. -/
def resolvable (env : Env) (uniform : Uniform) : Bool :=
  match resolveTexture env uniform with
  | some (some _) => true
  | _ => false

/-- The writes one texture descriptor contributes. -/
def textureWritesOf (env : Env) (uniformsInstance : UniformsInstance) (uniform : Uniform) :
    List WriteDescriptorSet :=
  match resolveTexture env uniform with
  | some (some imageInfo) => [textureWrite uniformsInstance uniform imageInfo]
  | _ => []

/-- The error messages one texture descriptor contributes. -/
def textureErrorsOf (env : Env) (uniform : Uniform) : List String :=
  match resolveTexture env uniform with
  | some none => ["vulkan write descriptor set have empty image info."]
  | _ => []

/-- The uniform-buffer bindings `createVkDescriptorSetLayout` pushes first. -/
def uboBindings (m : UniformMaps) : List LayoutBinding :=
  (if isHaveNormalUniform m.vs then [uboLayoutBinding 0 .VERTEX_BIT] else []) ++
    (if isHaveNormalUniform m.fs then [uboLayoutBinding 1 .FRAGMENT_BIT] else [])

/-- The sum `m_location + m_sizeInBytes` of the descriptor is a non-negative `i32`
value: the condition under which the body of the sizing loop is defined and returns. -/
def sizable (uniform : Uniform) : Prop :=
  0 ≤ uniform.m_location + uniform.m_sizeInBytes ∧
    uniform.m_location + uniform.m_sizeInBytes < 2 ^ 31

instance (uniform : Uniform) : Decidable (sizable uniform) := by
  unfold sizable; infer_instance

/-- The length `allocUniformBytes` grows a mirror to for one sizable descriptor: the
sum `m_location + m_sizeInBytes`. -/
def allocTarget (uniform : Uniform) : Nat :=
  (uniform.m_location + uniform.m_sizeInBytes).toNat

/-- The descriptors of a list of map entries whose `m_shader` is the stage `s`. -/
def stageOf (s : ShaderType) (l : List (String × Uniform)) : List Uniform :=
  (l.map Prod.snd).filter (fun u => u.m_shader = s)

/-- All descriptors of stage `s`, texture descriptors included, in iteration order. -/
def descriptorsOf (m : UniformMaps) (s : ShaderType) : List Uniform := stageOf s (m.vs ++ m.fs)

/-- The maximum of a list of lengths, 0 for the empty list. -/
def maxOf (l : List Nat) : Nat := l.foldl max 0

/-- A pair of all-zero mirrors of the given lengths. -/
def zeroBytes (a c : Nat) : UniformBytes :=
  { vertex := List.replicate a 0, fragment := List.replicate c 0 }

/-- The descriptor stored under a name (`uniformMap.find(name)`): the first entry
with that key. -/
def UniformMap.find : UniformMap → String → Option Uniform
  | [], _ => none
  | (k', u') :: rest, k => if k = k' then some u' else UniformMap.find rest k

/-- The step of the member loop of `addUniform` for member `im.1` of type `im.2`. -/
def memberStep (env : Env) (compiler : Compiler) (type : SPIRType) (shaderType : ShaderType)
    (m : UniformMaps) (im : Nat × Nat) : Option UniformMaps :=
  (memberUniform env compiler type shaderType im.1 im.2).map
    (fun desc => m.assign shaderType desc.m_name desc)


/-- The map holds at least one non-texture descriptor. -/
def hasOrdinary (uniformMap : UniformMap) : Prop :=
  ∃ it ∈ uniformMap, it.2.m_type ≠ ShaderParamType.SPT_TEXTURE

instance (uniformMap : UniformMap) : Decidable (hasOrdinary uniformMap) := by
  unfold hasOrdinary; infer_instance

/-! ## A concrete program: one vertex float, one fragment sampler

The scenario of a vertex uniform block with a single 4-byte float `intensity` at
offset 0 and a fragment combined image sampler `u_Tex` at binding 2. -/

namespace Scenario

/-- The type table shared by the two modules. -/
def typeTable (id : Nat) : SPIRType :=
  if id = 10 then { self := 10, basetype := .Float, member_types := [] }
  else if id = 11 then { self := 11, basetype := .Struct, member_types := [10] }
  else if id = 12 then { self := 12, basetype := .SampledImage, member_types := [] }
  else { self := id, basetype := .Unknown, member_types := [] }

/-- Reflection of the vertex module: one block with the member `intensity`. -/
def vsCompiler : Compiler :=
  { get_shader_resources :=
      { uniform_buffers := [{ id := 20, base_type_id := 11, name := "UBO" }]
        sampled_images := [] }
    get_type := typeTable
    get_decoration_binding := fun _ => 0
    get_member_name := fun _ _ => "intensity"
    get_declared_struct_member_size := fun _ _ => 4
    type_struct_member_offset := fun _ _ => 0 }

/-- Reflection of the fragment module: one sampler at binding 2. -/
def fsCompiler : Compiler :=
  { get_shader_resources :=
      { uniform_buffers := []
        sampled_images := [{ id := 21, base_type_id := 12, name := "u_Tex" }] }
    get_type := typeTable
    get_decoration_binding := fun _ => 2
    get_member_name := fun _ _ => ""
    get_declared_struct_member_size := fun _ _ => 0
    type_struct_member_offset := fun _ _ => 0 }

/-- Reflection of a module that declares no resources. -/
def bareCompiler : Compiler :=
  { get_shader_resources := { uniform_buffers := [], sampled_images := [] }
    get_type := typeTable
    get_decoration_binding := fun _ => 0
    get_member_name := fun _ _ => ""
    get_declared_struct_member_size := fun _ _ => 0
    type_struct_member_offset := fun _ _ => 0 }

/-- A device on which every native call succeeds; handles are numbered by the
position of the call. The source pair `("", "")` compiles to two modules without
resources, `("v", "")` to a vertex module and no fragment bytecode, every other
pair to the two modules above. Texture 0 exists and has image info. -/
def env : Env :=
  { getSPIRV := fun vsSrc psSrc s =>
      match s with
      | .VS => if vsSrc = "" then [3] else [1]
      | .FS => if psSrc = "" then (if vsSrc = "" then [3] else []) else [2]
    reflect := fun w => if w = [1] then vsCompiler else if w = [2] then fsCompiler else bareCompiler
    mapUniformType := fun t =>
      match t.basetype with
      | .Float => .SPT_FLOAT
      | .SampledImage => .SPT_TEXTURE
      | _ => .SPT_UNKNOWN
    mapUniformTypeSize := fun t =>
      match t with
      | .SPT_UNKNOWN => 0
      | .SPT_VEC2 => 8
      | .SPT_VEC3 => 12
      | .SPT_VEC4 => 16
      | .SPT_MAT4 => 64
      | _ => 4
    getValueDefault := fun u => List.replicate u.m_sizeInBytes.toNat 0
    vkCreateShaderModule := fun ev _ => some (100 + ev.length)
    vkCreateDescriptorSetLayout := fun ev _ => some (100 + ev.length)
    vkCreatePipelineLayout := fun ev _ => some (100 + ev.length)
    vkAllocateDescriptorSets := fun ev _ => some (100 + ev.length)
    vkCreateBuffer := fun ev _ => some (100 + ev.length)
    getTexture := fun i => if i = 0 then some { getVkDescriptorImageInfo := some 7 } else none }

/-- A renderer that has not been asked anything yet. -/
def renderer : VKRenderer := { events := [], errors := [] }

/-- A program object before `createShaderProgram`. -/
def unlinked : D3D11ShaderProgram :=
  { m_isLinked := false
    m_vkVertexShader := none
    m_vkFragmentShader := none
    m_vertexShaderCompiler := none
    m_fragmentShaderCompiler := none
    m_vkShaderStagesCreateInfo := []
    m_uniforms := { vs := [], fs := [] }
    m_vertexShaderUniformBytes := []
    m_fragmentShaderUniformBytes := []
    m_layoutBindings := []
    m_vkDescriptorSetLayout := none
    m_vkPipelineLayout := none }

/-- A uniforms instance before its first bind. -/
def fresh : UniformsInstance :=
  { m_vkDescriptorSet := none
    m_vkVertexShaderUniformBuffer := none
    m_vkFragmentShaderUniformBuffer := none
    m_vkShaderUniformBufferDescriptors :=
      { vs := { buffer := none, offset := 0, range := 0 }
        fs := { buffer := none, offset := 0, range := 0 } } }

/-- The descriptor of `intensity`, as reflection builds it. -/
def intensity : Uniform :=
  { m_name := "intensity", m_shader := .VS, m_type := .SPT_FLOAT, m_count := 1,
    m_sizeInBytes := 4, m_location := 0, m_value := [] }

/-- The descriptor of `u_Tex`, as reflection builds it. -/
def uTex : Uniform :=
  { m_name := "u_Tex", m_shader := .FS, m_type := .SPT_TEXTURE, m_count := 1,
    m_sizeInBytes := 4, m_location := 2, m_value := [] }

/-- The descriptor maps of the scenario. -/
def maps : UniformMaps := { vs := [("intensity", intensity)], fs := [("u_Tex", uTex)] }

/-- The linked program of the scenario: the state `createShaderProgram` leaves. -/
def linked : D3D11ShaderProgram :=
  { m_isLinked := true
    m_vkVertexShader := some 100
    m_vkFragmentShader := some 101
    m_vertexShaderCompiler := some vsCompiler
    m_fragmentShaderCompiler := some fsCompiler
    m_vkShaderStagesCreateInfo :=
      [ { stage := .VERTEX_BIT, module := some 100, pName := "main" },
        { stage := .FRAGMENT_BIT, module := some 101, pName := "main" } ]
    m_uniforms := maps
    m_vertexShaderUniformBytes := [0, 0, 0, 0]
    m_fragmentShaderUniformBytes := [0, 0, 0, 0, 0, 0]
    m_layoutBindings :=
      [ uboLayoutBinding 0 .VERTEX_BIT, samplerLayoutBinding uTex ]
    m_vkDescriptorSetLayout := some 103
    m_vkPipelineLayout := some 104 }

/-- The linked program after `intensity` has been given the value `v`. -/
def withIntensity (v : List Byte) : D3D11ShaderProgram :=
  { linked with
    m_uniforms :=
      { vs := [("intensity", { intensity with m_value := v })], fs := [("u_Tex", uTex)] } }

/-- The linked program after `u_Tex` has been given the value `v`. -/
def withTexture (v : List Byte) : D3D11ShaderProgram :=
  { linked with
    m_uniforms :=
      { vs := [("intensity", intensity)], fs := [("u_Tex", { uTex with m_value := v })] } }

/-- The linked program after a later link attempt failed: `m_isLinked` is false
again, the maps and mirrors of the earlier link are still there. -/
def stale : D3D11ShaderProgram := { linked with m_isLinked := false }

/-- The linked program holding descriptor maps left by an earlier link of other
bytecode. -/
def leftover : D3D11ShaderProgram :=
  { linked with
    m_uniforms := { vs := [("u_Old", uTex)], fs := [("intensity", intensity)] }
    m_vertexShaderUniformBytes := [1, 2, 3]
    m_fragmentShaderUniformBytes := [] }

/-- The instance after its first bind with the linked program. -/
def bound : UniformsInstance :=
  { m_vkDescriptorSet := some 102
    m_vkVertexShaderUniformBuffer :=
      some { getVkBuffer := some 100, getSize := 4, contents := [0, 0, 0, 0] }
    m_vkFragmentShaderUniformBuffer :=
      some { getVkBuffer := some 101, getSize := 6, contents := [0, 0, 0, 0, 0, 0] }
    m_vkShaderUniformBufferDescriptors :=
      { vs := { buffer := some 100, offset := 0, range := 4 }
        fs := { buffer := some 101, offset := 0, range := 6 } } }

/-- The writes a bind of the linked program passes to `vkUpdateDescriptorSets`. -/
def boundWrites : List WriteDescriptorSet :=
  [ { dstSet := some 102, dstBinding := 0, dstArrayElement := 0, descriptorCount := 1,
      descriptorType := .UNIFORM_BUFFER, pImageInfo := none,
      pBufferInfo := some (0, { buffer := some 100, offset := 0, range := 4 }) },
    { dstSet := some 102, dstBinding := 1, dstArrayElement := 0, descriptorCount := 1,
      descriptorType := .UNIFORM_BUFFER, pImageInfo := none,
      pBufferInfo := some (1, { buffer := some 101, offset := 0, range := 6 }) },
    { dstSet := some 102, dstBinding := 2, dstArrayElement := 0, descriptorCount := 1,
      descriptorType := .COMBINED_IMAGE_SAMPLER, pImageInfo := some 7, pBufferInfo := none } ]

/-- Reflection of a vertex module that declares, besides the block with `intensity`,
a combined image sampler `u_Height` at binding 3. -/
def vsSamplerCompiler : Compiler :=
  { get_shader_resources :=
      { uniform_buffers := [{ id := 20, base_type_id := 11, name := "UBO" }]
        sampled_images := [{ id := 22, base_type_id := 12, name := "u_Height" }] }
    get_type := typeTable
    get_decoration_binding := fun _ => 3
    get_member_name := fun _ _ => "intensity"
    get_declared_struct_member_size := fun _ _ => 4
    type_struct_member_offset := fun _ _ => 0 }

/-- The device of the scenario with a vertex bytecode that reflects to
`vsSamplerCompiler`. -/
def envVertexSampler : Env :=
  { env with reflect := fun w => if w = [1] then vsSamplerCompiler else env.reflect w }

/-- The uniform block of `blockCompiler`: two float members. -/
def pairBlock : SPIRType := { self := 13, basetype := .Struct, member_types := [10, 10] }

/-- Reflection of a module whose uniform block has two 4-byte float members at the
offsets 0 and 16, both reported under the name `v`. -/
def blockCompiler : Compiler :=
  { get_shader_resources :=
      { uniform_buffers := [{ id := 23, base_type_id := 13, name := "Block" }]
        sampled_images := [] }
    get_type := fun id => if id = 13 then pairBlock else typeTable id
    get_decoration_binding := fun _ => 0
    get_member_name := fun _ _ => "v"
    get_declared_struct_member_size := fun _ _ => 4
    type_struct_member_offset := fun _ i => 16 * i }

/-- A program whose vertex compiler is `blockCompiler`. -/
def pairProgram : D3D11ShaderProgram :=
  { unlinked with
    m_vertexShaderCompiler := some blockCompiler
    m_fragmentShaderCompiler := some bareCompiler }

/-- The descriptor maps of the scenario with the sampler moved to the largest
binding index an `i32` holds. -/
def farSampler : D3D11ShaderProgram :=
  { linked with
    m_uniforms :=
      { vs := [("intensity", intensity)]
        fs := [("u_Tex", { uTex with m_location := 2147483647 })] } }

/-- Reflection of a vertex module whose block member `intensity` carries the offset
decoration 4294967295, the largest `uint32_t`. -/
def wrappedOffsetCompiler : Compiler :=
  { vsCompiler with type_struct_member_offset := fun _ _ => 4294967295 }

/-- The device of the scenario with a vertex bytecode that reflects to
`wrappedOffsetCompiler`. -/
def envWrappedOffset : Env :=
  { env with reflect := fun w => if w = [1] then wrappedOffsetCompiler else env.reflect w }

/-- The descriptor `addUniform` builds for that member: the offset stored in the `i32`
field `m_location` is -1. -/
def wrappedIntensity : Uniform := { intensity with m_location := -1 }

/-- A descriptor of the vertex stage with location 4 and size -4 (a declared member
size of 4294967292 stored in the `i32` field) that has been given a 4-byte value. -/
def shrunkIntensity : Uniform :=
  { intensity with m_location := 4, m_sizeInBytes := -4, m_count := -1, m_value := [0, 0, 128, 63] }

/-- The linked program of the scenario holding that descriptor alone. -/
def negativeSize : D3D11ShaderProgram :=
  { linked with m_uniforms := { vs := [("intensity", shrunkIntensity)], fs := [] } }

end Scenario


/-! ## Lemmas -/

theorem memcpy_length {dst src : List Byte} {offset : Int} {n : Nat} {out : List Byte}
    (h : memcpy dst offset src n = some out) : out.length = dst.length := by
  unfold memcpy at h
  split at h
  · rename_i hc
    obtain ⟨_, h2, h3⟩ := hc
    simp only [Option.some.injEq] at h
    subst h
    simp only [List.length_append, List.length_take, List.length_drop]
    omega
  · simp at h

theorem memcpy_getElem? {dst src : List Byte} {offset : Int} {n : Nat} {out : List Byte}
    (h : memcpy dst offset src n = some out) (i : Nat)
    (hi : i < offset.toNat ∨ offset.toNat + n ≤ i) : out[i]? = dst[i]? := by
  unfold memcpy at h
  split at h
  · rename_i hc
    obtain ⟨_, h2, h3⟩ := hc
    simp only [Option.some.injEq] at h
    subst h
    rcases hi with hi | hi
    · rw [List.append_assoc, List.getElem?_append_left (by simp; omega)]
      rw [List.getElem?_take]
      simp [hi]
    · rw [List.getElem?_append_right (by simp; omega)]
      simp only [List.length_append, List.length_take]
      rw [List.getElem?_drop]
      congr 1
      omega
  · simp at h

theorem memcpy_range {dst src : List Byte} {offset : Int} {n : Nat} {out : List Byte}
    (h : memcpy dst offset src n = some out) :
    (out.drop offset.toNat).take n = src.take n := by
  unfold memcpy at h
  split at h
  · rename_i hc
    obtain ⟨_, h2, h3⟩ := hc
    simp only [Option.some.injEq] at h
    subst h
    have h1 : (List.take offset.toNat dst).length = offset.toNat := by
      simp; omega
    rw [List.append_assoc, List.drop_append_of_le_length (by omega), List.drop_of_length_le (by omega)]
    simp only [List.nil_append]
    rw [List.take_append_of_le_length (by simp; omega)]
    simp
  · simp at h

theorem toSizeT_of_nonneg {x : Int} (h0 : 0 ≤ x) (h1 : x < 2 ^ 31) : toSizeT x = x.toNat := by
  unfold toSizeT
  rw [Int.emod_eq_of_lt h0 (by omega)]

theorem UniformBytes.get_set_same (b : UniformBytes) (s : ShaderType) (v : List Byte) :
    (b.set s v).get s = v := by
  cases s <;> rfl

theorem UniformBytes.get_set_other (b : UniformBytes) {s t : ShaderType} (v : List Byte)
    (h : t ≠ s) : (b.set s v).get t = b.get t := by
  cases s <;> cases t <;> first | rfl | exact absurd rfl h

theorem organizeUniform_skip {env : Env} {b : UniformBytes} {u : Uniform}
    (h : ¬ copies env u) : organizeUniform env b u = some b := by
  unfold organizeUniform
  unfold copies getValue at h
  by_cases h1 : (if u.m_value.isEmpty = true then env.getValueDefault u else u.m_value) ≠ [] ∧
      u.m_type ≠ ShaderParamType.SPT_UNKNOWN
  · have h2 : ¬ u.m_type ≠ ShaderParamType.SPT_TEXTURE := fun h3 => h ⟨h1.1, h1.2, h3⟩
    dsimp only
    rw [if_pos h1, if_neg h2]
  · dsimp only
    rw [if_neg h1]

theorem organizeUniform_copy {env : Env} {b : UniformBytes} {u : Uniform}
    (h : copies env u) :
    organizeUniform env b u =
      (memcpy (b.get u.m_shader) u.m_location (getValue env u) (toSizeT u.m_sizeInBytes)).map
        (b.set u.m_shader) := by
  unfold organizeUniform
  unfold copies getValue at h
  unfold getValue
  have h1 : (if u.m_value.isEmpty = true then env.getValueDefault u else u.m_value) ≠ [] ∧
      u.m_type ≠ ShaderParamType.SPT_UNKNOWN := ⟨h.1, h.2.1⟩
  dsimp only
  rw [if_pos h1, if_pos h.2.2]

theorem memcpy_isSome (dst src : List Byte) (offset : Int) (n : Nat)
    (h0 : 0 ≤ offset) (h1 : offset.toNat + n ≤ dst.length) (h2 : n ≤ src.length) :
    ∃ out, memcpy dst offset src n = some out := by
  unfold memcpy
  rw [if_pos ⟨h0, h1, h2⟩]
  exact ⟨_, rfl⟩

theorem UniformBytes.sameLengths_get {b c : UniformBytes} (h : b.sameLengths c) (s : ShaderType) :
    (c.get s).length = (b.get s).length := by
  cases s
  · exact h.1
  · exact h.2

theorem UniformBytes.sameLengths_refl (b : UniformBytes) : b.sameLengths b := ⟨rfl, rfl⟩

theorem UniformBytes.sameLengths_trans {a b c : UniformBytes} (h1 : a.sameLengths b)
    (h2 : b.sameLengths c) : a.sameLengths c :=
  ⟨h2.1.trans h1.1, h2.2.trans h1.2⟩

theorem UniformBytes.sameLengths_set {b : UniformBytes} {s : ShaderType} {v : List Byte}
    (h : v.length = (b.get s).length) : b.sameLengths (b.set s v) := by
  cases s
  · exact ⟨h, rfl⟩
  · exact ⟨rfl, h⟩

theorem copyInBounds_of_sameLengths {env : Env} {b c : UniformBytes} {u : Uniform}
    (h : b.sameLengths c) (hb : copyInBounds env b u) : copyInBounds env c u := by
  unfold copyInBounds at *
  rw [UniformBytes.sameLengths_get h]
  exact hb

/-- One step of the organize loop is defined when its copy is in bounds, and keeps
the lengths of both mirrors. -/
theorem organizeUniform_defined {env : Env} {b : UniformBytes} {u : Uniform}
    (h : copies env u → copyInBounds env b u) :
    ∃ c, organizeUniform env b u = some c ∧ b.sameLengths c := by
  by_cases hc : copies env u
  · obtain ⟨h0, h1, h2, h3, h4⟩ := h hc
    rw [organizeUniform_copy hc]
    have hn := toSizeT_of_nonneg h1 h2
    obtain ⟨out, hout⟩ := memcpy_isSome (b.get u.m_shader) (getValue env u)
      u.m_location (toSizeT u.m_sizeInBytes) h0 (by rw [hn]; omega)
      (by rw [hn]; omega)
    refine ⟨b.set u.m_shader out, by rw [hout]; rfl, ?_⟩
    exact UniformBytes.sameLengths_set (memcpy_length hout)
  · exact ⟨b, organizeUniform_skip hc, UniformBytes.sameLengths_refl b⟩

/-- A step keeps the lengths whenever it is defined. -/
theorem organizeUniform_sameLengths {env : Env} {b c : UniformBytes} {u : Uniform}
    (h : organizeUniform env b u = some c) : b.sameLengths c := by
  by_cases hc : copies env u
  · rw [organizeUniform_copy hc] at h
    cases hm : memcpy (b.get u.m_shader) u.m_location (getValue env u) (toSizeT u.m_sizeInBytes) with
    | none => rw [hm] at h; simp at h
    | some out =>
      rw [hm] at h
      simp only [Option.map_some', Option.some.injEq] at h
      subst h
      exact UniformBytes.sameLengths_set (memcpy_length hm)
  · rw [organizeUniform_skip hc] at h
    simp only [Option.some.injEq] at h
    subst h
    exact UniformBytes.sameLengths_refl b

theorem organizeUniformBytes_eq (env : Env) (m : UniformMaps) (b : UniformBytes) :
    organizeUniformBytes env m b =
      (m.vs ++ m.fs).foldlM (fun b it => organizeUniform env b it.2) b := by
  simp [organizeUniformBytes, UniformMaps.toList, List.foldlM_append]

theorem organizeList_defined {env : Env} :
    ∀ (l : List (String × Uniform)) (b : UniformBytes),
      (∀ it ∈ l, copies env it.2 → copyInBounds env b it.2) →
      ∃ c, l.foldlM (fun b it => organizeUniform env b it.2) b = some c ∧ b.sameLengths c := by
  intro l
  induction l with
  | nil => intro b _; exact ⟨b, rfl, UniformBytes.sameLengths_refl b⟩
  | cons it rest ih =>
    intro b h
    obtain ⟨c, hc, hl⟩ := organizeUniform_defined (h it (List.mem_cons_self _ _))
    obtain ⟨d, hd, hl2⟩ := ih c (fun it2 hit2 hcp =>
      copyInBounds_of_sameLengths hl (h it2 (List.mem_cons_of_mem _ hit2) hcp))
    refine ⟨d, ?_, UniformBytes.sameLengths_trans hl hl2⟩
    rw [List.foldlM_cons, hc]
    exact hd

theorem organizeList_sameLengths {env : Env} :
    ∀ (l : List (String × Uniform)) (b c : UniformBytes),
      l.foldlM (fun b it => organizeUniform env b it.2) b = some c → b.sameLengths c := by
  intro l
  induction l with
  | nil =>
    intro b c h
    simp only [List.foldlM_nil] at h
    cases h
    exact UniformBytes.sameLengths_refl b
  | cons it rest ih =>
    intro b c h
    rw [List.foldlM_cons] at h
    cases h1 : organizeUniform env b it.2 with
    | none => rw [h1] at h; simp at h
    | some b1 =>
      rw [h1] at h
      exact UniformBytes.sameLengths_trans (organizeUniform_sameLengths h1) (ih b1 c h)

theorem byteRange_eq_of_getElem? {a b : List Byte} {location size : Int}
    (h : ∀ i, i < size.toNat → a[location.toNat + i]? = b[location.toNat + i]?) :
    byteRange a location size = byteRange b location size := by
  unfold byteRange
  apply List.ext_getElem?
  intro i
  rw [List.getElem?_take, List.getElem?_take]
  by_cases hi : i < size.toNat
  · rw [if_pos hi, if_pos hi, List.getElem?_drop, List.getElem?_drop]
    exact h i hi
  · rw [if_neg hi, if_neg hi]

theorem organizeUniform_keeps_range {env : Env} {b c : UniformBytes} {d : Uniform}
    {s : ShaderType} {location size : Int}
    (h : organizeUniform env b d = some c) (hin : copies env d → copyInBounds env b d)
    (hloc : 0 ≤ location) (hsize : 0 ≤ size)
    (hapart : apartFrom env s location size d) :
    byteRange (c.get s) location size = byteRange (b.get s) location size := by
  by_cases hc : copies env d
  · rw [organizeUniform_copy hc] at h
    cases hm : memcpy (b.get d.m_shader) d.m_location (getValue env d) (toSizeT d.m_sizeInBytes) with
    | none => rw [hm] at h; simp at h
    | some out =>
      rw [hm] at h
      simp only [Option.map_some', Option.some.injEq] at h
      subst h
      by_cases hs : d.m_shader = s
      · subst hs
        rw [UniformBytes.get_set_same]
        obtain ⟨h0, h1, h2, h3, h4⟩ := hin hc
        have hn := toSizeT_of_nonneg h1 h2
        apply byteRange_eq_of_getElem?
        intro i hi
        apply memcpy_getElem? hm
        rw [hn]
        rcases hapart hc rfl with hd | hd
        · right; omega
        · left; omega
      · rw [UniformBytes.get_set_other _ _ (fun e => hs e.symm)]
  · rw [organizeUniform_skip hc] at h
    simp only [Option.some.injEq] at h
    subst h
    rfl

theorem organizeList_keeps_range {env : Env} {s : ShaderType} {location size : Int}
    (hloc : 0 ≤ location) (hsize : 0 ≤ size) :
    ∀ (l : List (String × Uniform)) (b c : UniformBytes),
      l.foldlM (fun b it => organizeUniform env b it.2) b = some c →
      (∀ it ∈ l, copies env it.2 → copyInBounds env b it.2) →
      (∀ it ∈ l, apartFrom env s location size it.2) →
      byteRange (c.get s) location size = byteRange (b.get s) location size := by
  intro l
  induction l with
  | nil =>
    intro b c h _ _
    simp only [List.foldlM_nil] at h
    cases h
    rfl
  | cons it rest ih =>
    intro b c h hin hapart
    rw [List.foldlM_cons] at h
    cases h1 : organizeUniform env b it.2 with
    | none => rw [h1] at h; simp at h
    | some b1 =>
      rw [h1] at h
      have hl := organizeUniform_sameLengths h1
      rw [ih b1 c h
        (fun it2 hit2 hcp => copyInBounds_of_sameLengths hl (hin it2 (List.mem_cons_of_mem _ hit2) hcp))
        (fun it2 hit2 => hapart it2 (List.mem_cons_of_mem _ hit2))]
      exact organizeUniform_keeps_range h1 (hin it (List.mem_cons_self _ _)) hloc hsize
        (hapart it (List.mem_cons_self _ _))

theorem organizeUniform_writes_range {env : Env} {b c : UniformBytes} {u : Uniform}
    (h : organizeUniform env b u = some c) (hc : copies env u) (hin : copyInBounds env b u) :
    byteRange (c.get u.m_shader) u.m_location u.m_sizeInBytes =
      (getValue env u).take u.m_sizeInBytes.toNat := by
  rw [organizeUniform_copy hc] at h
  cases hm : memcpy (b.get u.m_shader) u.m_location (getValue env u) (toSizeT u.m_sizeInBytes) with
  | none => rw [hm] at h; simp at h
  | some out =>
    rw [hm] at h
    simp only [Option.map_some', Option.some.injEq] at h
    subst h
    rw [UniformBytes.get_set_same]
    obtain ⟨h0, h1, h2, h3, h4⟩ := hin
    have hn := toSizeT_of_nonneg h1 h2
    have := memcpy_range hm
    rw [hn] at this
    exact this

theorem needsRealloc_iff (p : D3D11ShaderProgram) (inst : UniformsInstance) :
    needsRealloc p inst = true ↔ lacksOrMismatch p inst .VS ∨ lacksOrMismatch p inst .FS := by
  unfold needsRealloc lacksOrMismatch UniformsInstance.buffer D3D11ShaderProgram.uniformBytes
    UniformBytes.get
  cases inst.m_vkVertexShaderUniformBuffer <;> cases inst.m_vkFragmentShaderUniformBuffer <;>
    simp

theorem ensureAndUpload_realloc (env : Env) (r : VKRenderer) (p : D3D11ShaderProgram)
    (inst : UniformsInstance) (h : needsRealloc p inst = true) :
    ∃ inst' r' vb fb, ensureAndUpload env r p inst = some (inst', r') ∧
      inst'.m_vkVertexShaderUniformBuffer = some vb ∧
      inst'.m_vkFragmentShaderUniformBuffer = some fb ∧
      vb.contents = p.m_vertexShaderUniformBytes ∧ fb.contents = p.m_fragmentShaderUniformBytes ∧
      vb.getSize = p.m_vertexShaderUniformBytes.length ∧
      fb.getSize = p.m_fragmentShaderUniformBytes.length ∧
      r'.events = r.events ++ reallocEvents p := by
  unfold ensureAndUpload
  rw [if_pos h]
  refine ⟨_, _, _, _, rfl, rfl, rfl, rfl, rfl, rfl, rfl, ?_⟩
  simp only [createVkDescriptorSet, createVkUniformBuffer, newVKBuffer, VKRenderer.emit,
    VKRenderer.logError, reallocEvents]
  split <;> simp

theorem ensureAndUpload_keep (env : Env) (r : VKRenderer) (p : D3D11ShaderProgram)
    (inst : UniformsInstance) (h : needsRealloc p inst = false) :
    ∃ inst' vb fb, ensureAndUpload env r p inst = some (inst', r) ∧
      inst'.m_vkVertexShaderUniformBuffer = some vb ∧
      inst'.m_vkFragmentShaderUniformBuffer = some fb ∧
      vb.contents = p.m_vertexShaderUniformBytes ∧ fb.contents = p.m_fragmentShaderUniformBytes ∧
      vb.getSize = p.m_vertexShaderUniformBytes.length ∧
      fb.getSize = p.m_fragmentShaderUniformBytes.length ∧
      inst'.m_vkDescriptorSet = inst.m_vkDescriptorSet ∧
      inst'.m_vkShaderUniformBufferDescriptors = inst.m_vkShaderUniformBufferDescriptors ∧
      (inst.m_vkVertexShaderUniformBuffer.map VKBuffer.getVkBuffer = some vb.getVkBuffer) ∧
      (inst.m_vkFragmentShaderUniformBuffer.map VKBuffer.getVkBuffer = some fb.getVkBuffer) := by
  unfold ensureAndUpload
  rw [if_neg (by rw [h]; simp)]
  unfold needsRealloc at h
  cases hv : inst.m_vkVertexShaderUniformBuffer with
  | none => rw [hv] at h; simp at h
  | some vb =>
    cases hf : inst.m_vkFragmentShaderUniformBuffer with
    | none => rw [hv, hf] at h; simp at h
    | some fb =>
      rw [hv, hf] at h
      simp only [Bool.or_eq_false_iff, bne_eq_false_iff_eq] at h
      simp only [hv, hf]
      exact ⟨_, _, _, rfl, rfl, rfl, rfl, rfl, h.1, h.2, rfl, rfl, rfl, rfl⟩

theorem getValue_of_ne_nil {env : Env} {u : Uniform} (h : u.m_value ≠ []) :
    getValue env u = u.m_value := by
  unfold getValue
  have : u.m_value.isEmpty = false := by
    cases hv : u.m_value with
    | nil => exact absurd hv h
    | cons a l => rfl
  rw [this]
  rfl

theorem organizeUniformBytes_defined {env : Env} {m : UniformMaps} {b : UniformBytes}
    (h : CopiesInBounds env m b) :
    ∃ c, organizeUniformBytes env m b = some c ∧ b.sameLengths c := by
  rw [organizeUniformBytes_eq]
  exact organizeList_defined _ b h

theorem updateVkUniformBuffer_linked (env : Env) (r : VKRenderer) (p : D3D11ShaderProgram)
    (inst : UniformsInstance) (hlinked : p.m_isLinked = true) :
    updateVkUniformBuffer env r p inst =
      (organizeUniformBytes env p.m_uniforms p.uniformBytes).bind
        (fun b =>
          (ensureAndUpload env r (p.setUniformBytes b) inst).map
            (fun ir => (p.setUniformBytes b, ir.1, ir.2))) := by
  unfold updateVkUniformBuffer
  rw [if_neg (by simp [hlinked])]

/-- After `ensureAndUpload` both device buffers exist and hold the mirrors. -/
theorem ensureAndUpload_uploads (env : Env) (r : VKRenderer) (p : D3D11ShaderProgram)
    (inst : UniformsInstance) :
    ∃ inst' r', ensureAndUpload env r p inst = some (inst', r') ∧
      ∀ s, ∃ buffer, inst'.buffer s = some buffer ∧ buffer.contents = p.uniformBytes.get s ∧
        buffer.getSize = (p.uniformBytes.get s).length := by
  cases h : needsRealloc p inst with
  | true =>
    obtain ⟨inst', r', vb, fb, h1, h2, h3, h4, h5, h6, h7, _⟩ := ensureAndUpload_realloc env r p inst h
    refine ⟨inst', r', h1, fun s => ?_⟩
    cases s
    · exact ⟨vb, h2, h4, h6⟩
    · exact ⟨fb, h3, h5, h7⟩
  | false =>
    obtain ⟨inst', vb, fb, h1, h2, h3, h4, h5, h6, h7, _⟩ := ensureAndUpload_keep env r p inst h
    refine ⟨inst', r, h1, fun s => ?_⟩
    cases s
    · exact ⟨vb, h2, h4, h6⟩
    · exact ⟨fb, h3, h5, h7⟩

theorem lacksOrMismatch_congr {p q : D3D11ShaderProgram} (inst : UniformsInstance)
    (h : p.uniformBytes.sameLengths q.uniformBytes) (s : ShaderType) :
    lacksOrMismatch q inst s ↔ lacksOrMismatch p inst s := by
  unfold lacksOrMismatch
  rw [UniformBytes.sameLengths_get h s]

theorem allocationCount_realloc {r r' : VKRenderer} {p : D3D11ShaderProgram}
    (h : r'.events = r.events ++ reallocEvents p) : allocationCount r' = allocationCount r + 3 := by
  unfold allocationCount
  rw [h, List.countP_append]
  rfl

theorem createShader_flag (env : Env) (r : VKRenderer) (spirv : List Nat) (h : Option Nat)
    (c : Option Compiler) :
    (createShader env r spirv h c).1 = true ↔
      spirv ≠ [] ∧ (env.vkCreateShaderModule r.events spirv).isSome := by
  unfold createShader
  cases spirv with
  | nil => simp
  | cons a l =>
    cases hm : env.vkCreateShaderModule r.events (a :: l) <;> simp [hm]

theorem createShader_events (env : Env) (r : VKRenderer) (spirv : List Nat) (h : Option Nat)
    (c : Option Compiler) :
    (createShader env r spirv h c).2.2.2.events =
      if spirv = [] then r.events else r.events ++ [Event.vkCreateShaderModule spirv] := by
  unfold createShader
  cases spirv with
  | nil => simp [VKRenderer.logError]
  | cons a l =>
    cases hm : env.vkCreateShaderModule r.events (a :: l) <;>
      simp [hm, VKRenderer.logError, VKRenderer.emit]

theorem createShader_compiler (env : Env) (r : VKRenderer) (spirv : List Nat) (h : Option Nat)
    (c : Option Compiler) (hs : spirv ≠ []) :
    (createShader env r spirv h c).2.2.1 = some (env.reflect spirv) := by
  unfold createShader
  cases spirv with
  | nil => exact absurd rfl hs
  | cons a l =>
    cases hm : env.vkCreateShaderModule r.events (a :: l) <;> simp [hm]

theorem createShaderProgram_flags (env : Env) (r : VKRenderer) (vs fs : List Nat)
    (h1 h2 : Option Nat) (c1 c2 : Option Compiler) :
    ((createShader env r vs h1 c1).1 &&
        (createShader env (createShader env r vs h1 c1).2.2.2 fs h2 c2).1) = true ↔
      bothShadersCreated env r vs fs := by
  rw [Bool.and_eq_true, createShader_flag, createShader_flag, createShader_events]
  unfold bothShadersCreated
  constructor
  · rintro ⟨⟨a, b⟩, c, d⟩
    rw [if_neg a] at d
    exact ⟨a, c, b, d⟩
  · rintro ⟨a, c, b, d⟩
    rw [if_neg a]
    exact ⟨⟨a, b⟩, c, d⟩

theorem addUniform_congr (env : Env) {p q : D3D11ShaderProgram}
    (hv : p.m_vertexShaderCompiler = q.m_vertexShaderCompiler)
    (hf : p.m_fragmentShaderCompiler = q.m_fragmentShaderCompiler) :
    addUniform env p = addUniform env q := by
  funext m res s
  unfold addUniform
  have : p.compiler s = q.compiler s := by
    cases s
    · exact hv
    · exact hf
  rw [this]

/-- Reflection reads the two compilers only: not the descriptor maps left by an
earlier run, nor any other field of the program. -/
theorem reflectUniforms_congr (env : Env) {p q : D3D11ShaderProgram}
    (hv : p.m_vertexShaderCompiler = q.m_vertexShaderCompiler)
    (hf : p.m_fragmentShaderCompiler = q.m_fragmentShaderCompiler) :
    reflectUniforms env p = reflectUniforms env q := by
  unfold reflectUniforms
  rw [addUniform_congr env hv hf, hv, hf]
  rfl

theorem createShaderProgram_linked (env : Env) (r : VKRenderer) (p : D3D11ShaderProgram)
    (vsSrc psSrc : String) (m : UniformMaps) (b : UniformBytes)
    (h : bothShadersCreated env r (env.getSPIRV vsSrc psSrc .VS) (env.getSPIRV vsSrc psSrc .FS))
    (hm : reflectUniforms env
      (withCompilers env p (env.getSPIRV vsSrc psSrc .VS) (env.getSPIRV vsSrc psSrc .FS)) = some m)
    (hb : allocBytes m = some b) :
    ∃ p' r', createShaderProgram env r p vsSrc psSrc = some (true, p', r') ∧
      p'.m_isLinked = true ∧ p'.m_uniforms = m ∧ p'.uniformBytes = b ∧
      p'.m_layoutBindings = layoutBindings m := by
  have hf := (createShaderProgram_flags env r (env.getSPIRV vsSrc psSrc .VS)
    (env.getSPIRV vsSrc psSrc .FS) p.m_vkVertexShader p.m_vkFragmentShader
    p.m_vertexShaderCompiler p.m_fragmentShaderCompiler).mpr h
  unfold createShaderProgram
  simp only [hf, if_true]
  rw [parseUniforms]
  rw [reflectUniforms_congr env (q := withCompilers env p (env.getSPIRV vsSrc psSrc .VS)
    (env.getSPIRV vsSrc psSrc .FS))
    (createShader_compiler env _ _ _ _ h.1) (createShader_compiler env _ _ _ _ h.2.1), hm]
  simp only [Option.some_bind, allocUniformBytes, hb, Option.map_some']
  refine ⟨_, _, rfl, rfl, rfl, rfl, rfl⟩

/-- Once both shader modules are created, the link does not return when the sizing of
the mirrors does not. -/
theorem createShaderProgram_unsized (env : Env) (r : VKRenderer) (p : D3D11ShaderProgram)
    (vsSrc psSrc : String) (m : UniformMaps)
    (h : bothShadersCreated env r (env.getSPIRV vsSrc psSrc .VS) (env.getSPIRV vsSrc psSrc .FS))
    (hm : reflectUniforms env
      (withCompilers env p (env.getSPIRV vsSrc psSrc .VS) (env.getSPIRV vsSrc psSrc .FS)) = some m)
    (hb : allocBytes m = none) :
    createShaderProgram env r p vsSrc psSrc = none := by
  have hf := (createShaderProgram_flags env r (env.getSPIRV vsSrc psSrc .VS)
    (env.getSPIRV vsSrc psSrc .FS) p.m_vkVertexShader p.m_vkFragmentShader
    p.m_vertexShaderCompiler p.m_fragmentShaderCompiler).mpr h
  unfold createShaderProgram
  simp only [hf, if_true]
  rw [parseUniforms]
  rw [reflectUniforms_congr env (q := withCompilers env p (env.getSPIRV vsSrc psSrc .VS)
    (env.getSPIRV vsSrc psSrc .FS))
    (createShader_compiler env _ _ _ _ h.1) (createShader_compiler env _ _ _ _ h.2.1), hm]
  simp only [Option.some_bind, allocUniformBytes, hb, Option.map_none']

theorem texturesOf_cons_texture {it : String × Uniform} {rest : List (String × Uniform)}
    (h : it.2.m_type = ShaderParamType.SPT_TEXTURE) :
    texturesOf (it :: rest) = it.2 :: texturesOf rest := by
  simp [texturesOf, List.filter_cons, h]

theorem texturesOf_cons_other {it : String × Uniform} {rest : List (String × Uniform)}
    (h : it.2.m_type ≠ ShaderParamType.SPT_TEXTURE) :
    texturesOf (it :: rest) = texturesOf rest := by
  simp [texturesOf, List.filter_cons, h]

theorem texturesOf_append (a b : List (String × Uniform)) :
    texturesOf (a ++ b) = texturesOf a ++ texturesOf b := by
  simp [texturesOf]

theorem textureStep_eq {env : Env} {inst : UniformsInstance}
    {st : List WriteDescriptorSet × VKRenderer} {u : Uniform}
    (ht : u.m_type = ShaderParamType.SPT_TEXTURE) (hr : (readI32 (getValue env u)).isSome) :
    textureStep env inst st u =
      some (st.1 ++ textureWritesOf env inst u,
        { st.2 with errors := st.2.errors ++ textureErrorsOf env u }) := by
  unfold textureStep textureWritesOf textureErrorsOf
  rw [if_pos ht]
  cases hres : resolveTexture env u with
  | none =>
    unfold resolveTexture at hres
    cases hread : readI32 (getValue env u) with
    | none => rw [hread] at hr; simp at hr
    | some idx => rw [hread] at hres; simp at hres
  | some x =>
    cases x with
    | none => simp [VKRenderer.logError]
    | some img => simp

theorem textureFold_defined {env : Env} {inst : UniformsInstance} :
    ∀ (l : List (String × Uniform)) (st : List WriteDescriptorSet × VKRenderer),
      (∀ u ∈ texturesOf l, (readI32 (getValue env u)).isSome) →
      l.foldlM (fun st it => textureStep env inst st it.2) st =
        some (st.1 ++ (texturesOf l).flatMap (textureWritesOf env inst),
          { st.2 with errors := st.2.errors ++ (texturesOf l).flatMap (textureErrorsOf env) }) := by
  intro l
  induction l with
  | nil => intro st _; simp [texturesOf]
  | cons it rest ih =>
    intro st h
    rw [List.foldlM_cons]
    by_cases ht : it.2.m_type = ShaderParamType.SPT_TEXTURE
    · rw [texturesOf_cons_texture ht] at h ⊢
      rw [textureStep_eq ht (h it.2 (List.mem_cons_self _ _))]
      simp only [Option.bind_eq_bind, Option.some_bind]
      rw [ih _ (fun u hu => h u (List.mem_cons_of_mem _ hu))]
      simp [List.flatMap_cons, List.append_assoc]
    · rw [texturesOf_cons_other ht] at h ⊢
      have : textureStep env inst st it.2 = some st := by
        unfold textureStep; rw [if_neg ht]
      rw [this]
      simp only [Option.bind_eq_bind, Option.some_bind]
      exact ih st h

theorem buildWrites_eq (env : Env) (r : VKRenderer) (p : D3D11ShaderProgram)
    (inst : UniformsInstance) :
    buildWrites env r p inst =
      (p.m_uniforms.vs ++ p.m_uniforms.fs).foldlM
        (fun st it => textureStep env inst st it.2) (uniformBufferWrites inst, r) := by
  simp [buildWrites, UniformMaps.toList, List.foldlM_append]

theorem uniformBufferWrites_eq (inst : UniformsInstance) :
    uniformBufferWrites inst =
      (if inst.m_vkShaderUniformBufferDescriptors.vs.buffer.isSome then
          [uniformBufferWrite inst 0 inst.m_vkShaderUniformBufferDescriptors.vs]
        else []) ++
      (if inst.m_vkShaderUniformBufferDescriptors.fs.buffer.isSome then
          [uniformBufferWrite inst 1 inst.m_vkShaderUniformBufferDescriptors.fs]
        else []) := by
  unfold uniformBufferWrites BufferInfos.toList
  cases h1 : inst.m_vkShaderUniformBufferDescriptors.vs.buffer.isSome <;>
    cases h2 : inst.m_vkShaderUniformBufferDescriptors.fs.buffer.isSome <;>
    simp [List.enum, List.enumFrom, h1, h2]

theorem textureWritesOf_type {env : Env} {inst : UniformsInstance} {u : Uniform}
    {w : WriteDescriptorSet} (h : w ∈ textureWritesOf env inst u) :
    w.descriptorType = DescriptorType.COMBINED_IMAGE_SAMPLER ∧
      w.dstBinding = toU32 u.m_location := by
  unfold textureWritesOf at h
  split at h
  · simp only [List.mem_singleton] at h
    subst h
    exact ⟨rfl, rfl⟩
  · simp at h

theorem uniformBufferWrites_type {inst : UniformsInstance} {w : WriteDescriptorSet}
    (h : w ∈ uniformBufferWrites inst) : w.descriptorType = DescriptorType.UNIFORM_BUFFER := by
  rw [uniformBufferWrites_eq] at h
  rcases List.mem_append.mp h with h | h <;>
    · split at h
      · simp only [List.mem_singleton] at h
        subst h
        rfl
      · simp at h

theorem countP_sampler_textureWrites (env : Env) (inst : UniformsInstance) (l : List Uniform) :
    (l.flatMap (textureWritesOf env inst)).countP
        (fun w => w.descriptorType = DescriptorType.COMBINED_IMAGE_SAMPLER) =
      l.countP (resolvable env) := by
  induction l with
  | nil => rfl
  | cons u rest ih =>
    rw [List.flatMap_cons, List.countP_append, ih, List.countP_cons]
    have : (textureWritesOf env inst u).countP
        (fun w => w.descriptorType = DescriptorType.COMBINED_IMAGE_SAMPLER) =
        if resolvable env u = true then 1 else 0 := by
      unfold textureWritesOf resolvable
      split <;> simp_all [textureWrite]
    rw [this]
    omega

theorem filter_ubo_textureWrites (env : Env) (inst : UniformsInstance) (l : List Uniform) :
    (l.flatMap (textureWritesOf env inst)).filter
        (fun w => w.descriptorType = DescriptorType.UNIFORM_BUFFER) = [] := by
  rw [List.filter_eq_nil_iff]
  intro w hw
  obtain ⟨u, _, hu⟩ := List.mem_flatMap.mp hw
  rw [(textureWritesOf_type hu).1]
  simp

theorem filter_ubo_uniformBufferWrites (inst : UniformsInstance) :
    (uniformBufferWrites inst).filter
        (fun w => w.descriptorType = DescriptorType.UNIFORM_BUFFER) = uniformBufferWrites inst := by
  rw [List.filter_eq_self]
  intro w hw
  rw [uniformBufferWrites_type hw]
  simp

theorem countP_sampler_uniformBufferWrites (inst : UniformsInstance) :
    (uniformBufferWrites inst).countP
        (fun w => w.descriptorType = DescriptorType.COMBINED_IMAGE_SAMPLER) = 0 := by
  rw [List.countP_eq_zero]
  intro w hw
  rw [uniformBufferWrites_type hw]
  simp

theorem toU32_of_nonneg {x : Int} (h0 : 0 ≤ x) (h1 : x < 2 ^ 32) : (toU32 x : Int) = x := by
  unfold toU32
  rw [Int.emod_eq_of_lt h0 h1]
  omega

theorem samplerFold_eq :
    ∀ (l : List (String × Uniform)) (b : List LayoutBinding),
      l.foldl
          (fun b it =>
            if it.2.m_type = ShaderParamType.SPT_TEXTURE then b ++ [samplerLayoutBinding it.2]
            else b)
          b =
        b ++ (texturesOf l).map samplerLayoutBinding := by
  intro l
  induction l with
  | nil => intro b; simp [texturesOf]
  | cons it rest ih =>
    intro b
    rw [List.foldl_cons, ih]
    by_cases ht : it.2.m_type = ShaderParamType.SPT_TEXTURE
    · rw [if_pos ht, texturesOf_cons_texture ht]
      simp
    · rw [if_neg ht, texturesOf_cons_other ht]

theorem layoutBindings_eq (m : UniformMaps) :
    layoutBindings m = uboBindings m ++ (textureUniforms m).map samplerLayoutBinding := by
  unfold layoutBindings uboBindings textureUniforms UniformMaps.toList UniformMaps.get
  simp only [List.foldl_cons, List.foldl_nil, samplerFold_eq, texturesOf_append, List.map_append,
    List.nil_append, List.append_assoc]
  cases isHaveNormalUniform m.vs <;> cases isHaveNormalUniform m.fs <;> simp

theorem textureStep_writes {env : Env} {inst : UniformsInstance}
    {st st' : List WriteDescriptorSet × VKRenderer} {u : Uniform}
    (h : textureStep env inst st u = some st') :
    ∃ extra, st'.1 = st.1 ++ extra ∧
      ∀ w ∈ extra, w.descriptorType = DescriptorType.COMBINED_IMAGE_SAMPLER := by
  unfold textureStep at h
  split at h
  · split at h
    · simp at h
    · simp only [Option.some.injEq] at h
      subst h
      exact ⟨[_], rfl, by simp [textureWrite]⟩
    · simp only [Option.some.injEq] at h
      subst h
      exact ⟨[], by simp, by simp⟩
  · simp only [Option.some.injEq] at h
    subst h
    exact ⟨[], by simp, by simp⟩

theorem textureFold_writes {env : Env} {inst : UniformsInstance} :
    ∀ (l : List (String × Uniform)) (st st' : List WriteDescriptorSet × VKRenderer),
      l.foldlM (fun st it => textureStep env inst st it.2) st = some st' →
      ∃ extra, st'.1 = st.1 ++ extra ∧
        ∀ w ∈ extra, w.descriptorType = DescriptorType.COMBINED_IMAGE_SAMPLER := by
  intro l
  induction l with
  | nil =>
    intro st st' h
    simp only [List.foldlM_nil] at h
    cases h
    exact ⟨[], by simp, by simp⟩
  | cons it rest ih =>
    intro st st' h
    rw [List.foldlM_cons] at h
    cases h1 : textureStep env inst st it.2 with
    | none => rw [h1] at h; simp at h
    | some st1 =>
      rw [h1] at h
      obtain ⟨e1, he1, ht1⟩ := textureStep_writes h1
      obtain ⟨e2, he2, ht2⟩ := ih st1 st' h
      refine ⟨e1 ++ e2, by rw [he2, he1, List.append_assoc], ?_⟩
      intro w hw
      rcases List.mem_append.mp hw with hw | hw
      · exact ht1 w hw
      · exact ht2 w hw

theorem parseUniforms_of_reflect {env : Env} (r : VKRenderer) {p : D3D11ShaderProgram}
    {m : UniformMaps} {b : UniformBytes} (h : reflectUniforms env p = some m)
    (hb : allocBytes m = some b) :
    ∃ res, parseUniforms env r p = some res ∧ res.1 = true ∧ res.2.1.m_uniforms = m ∧
      res.2.1.uniformBytes = b ∧
      res.2.1.m_vertexShaderCompiler = p.m_vertexShaderCompiler ∧
      res.2.1.m_fragmentShaderCompiler = p.m_fragmentShaderCompiler ∧
      res.2.2 = r.emit Event.parseUniforms := by
  unfold parseUniforms
  rw [h]
  simp only [Option.some_bind, allocUniformBytes, hb, Option.map_some']
  exact ⟨_, rfl, rfl, rfl, rfl, rfl, rfl, rfl⟩

/-- The reflection pass does not return when the sizing of the mirrors does not. -/
theorem parseUniforms_of_unsized {env : Env} (r : VKRenderer) {p : D3D11ShaderProgram}
    {m : UniformMaps} (h : reflectUniforms env p = some m) (hb : allocBytes m = none) :
    parseUniforms env r p = none := by
  unfold parseUniforms
  rw [h]
  simp only [Option.some_bind, allocUniformBytes, hb, Option.map_none']

theorem parseUniforms_some {env : Env} {r : VKRenderer} {p : D3D11ShaderProgram}
    {res : Bool × D3D11ShaderProgram × VKRenderer} (h : parseUniforms env r p = some res) :
    reflectUniforms env p = some res.2.1.m_uniforms ∧ res.1 = true ∧
      allocBytes res.2.1.m_uniforms = some res.2.1.uniformBytes ∧
      res.2.1.m_vertexShaderCompiler = p.m_vertexShaderCompiler ∧
      res.2.1.m_fragmentShaderCompiler = p.m_fragmentShaderCompiler ∧
      res.2.2 = r.emit Event.parseUniforms := by
  cases hm : reflectUniforms env p with
  | none => unfold parseUniforms at h; rw [hm] at h; simp at h
  | some m =>
    cases hb : allocBytes m with
    | none => rw [parseUniforms_of_unsized r hm hb] at h; simp at h
    | some b =>
      obtain ⟨res', h1, h2, h3, h4, h5, h6, h7⟩ := parseUniforms_of_reflect r hm hb
      rw [h] at h1
      simp only [Option.some.injEq] at h1
      subst h1
      rw [h3, h4]
      exact ⟨rfl, h2, hb, h5, h6, h7⟩

theorem pushZeros_eq :
    ∀ (n : Nat) (l : List Byte) (t : Nat), t - l.length = n →
      pushZeros n l t = l ++ List.replicate n 0 := by
  intro n
  induction n with
  | zero => intro l t _; simp [pushZeros]
  | succ n ih =>
    intro l t h
    have hlt : l.length < t := by omega
    rw [pushZeros, if_pos hlt, ih (l ++ [0]) t (by simp; omega)]
    simp [List.replicate_succ]

theorem growTo_eq (l : List Byte) (bytes : Int) (h : 0 ≤ bytes) :
    growTo l bytes = some (l ++ List.replicate (toSizeT bytes - l.length) 0) := by
  unfold growTo
  rw [if_neg (by omega)]
  exact congrArg some (pushZeros_eq _ l _ rfl)

theorem growTo_negative (l : List Byte) (bytes : Int) (h : bytes < 0) : growTo l bytes = none := by
  unfold growTo
  rw [if_pos h]

theorem growTo_replicate (k : Nat) (bytes : Int) (h0 : 0 ≤ bytes) (h1 : bytes < 2 ^ 31) :
    growTo (List.replicate k (0 : Byte)) bytes = some (List.replicate (max k bytes.toNat) 0) := by
  rw [growTo_eq _ _ h0, List.length_replicate, ← List.replicate_add, toSizeT_of_nonneg h0 h1]
  congr 2
  omega

theorem addI32_of_sizable {u : Uniform} (h : sizable u) :
    addI32 u.m_location u.m_sizeInBytes = some (u.m_location + u.m_sizeInBytes) := by
  unfold addI32
  rw [if_pos ⟨by have := h.1; omega, h.2⟩]

theorem allocUniform_zeroBytes (a c : Nat) (u : Uniform) (h : sizable u) :
    allocUniform (zeroBytes a c) u =
      some (match u.m_shader with
        | .VS => zeroBytes (max a (allocTarget u)) c
        | .FS => zeroBytes a (max c (allocTarget u))) := by
  unfold allocUniform
  rw [addI32_of_sizable h]
  cases hs : u.m_shader <;>
    simp only [Option.some_bind, zeroBytes, UniformBytes.get, UniformBytes.set,
      growTo_replicate _ _ h.1 h.2, Option.map_some', allocTarget]

/-- The body of the sizing loop returns for sizable descriptors only. -/
theorem allocUniform_sizable {b b' : UniformBytes} {u : Uniform}
    (h : allocUniform b u = some b') : sizable u := by
  unfold allocUniform addI32 at h
  by_cases hr : -2 ^ 31 ≤ u.m_location + u.m_sizeInBytes ∧
      u.m_location + u.m_sizeInBytes < 2 ^ 31
  · rw [if_pos hr] at h
    simp only [Option.some_bind] at h
    by_cases hn : u.m_location + u.m_sizeInBytes < 0
    · rw [growTo_negative _ _ hn] at h
      simp at h
    · exact ⟨by omega, hr.2⟩
  · rw [if_neg hr] at h
    simp at h

theorem stageOf_cons_same {s : ShaderType} {it : String × Uniform}
    {rest : List (String × Uniform)} (h : it.2.m_shader = s) :
    stageOf s (it :: rest) = it.2 :: stageOf s rest := by
  simp [stageOf, List.filter_cons, h]

theorem stageOf_cons_other {s : ShaderType} {it : String × Uniform}
    {rest : List (String × Uniform)} (h : it.2.m_shader ≠ s) :
    stageOf s (it :: rest) = stageOf s rest := by
  simp [stageOf, List.filter_cons, h]

theorem allocFold_zeroBytes :
    ∀ (l : List (String × Uniform)) (a c : Nat), (∀ it ∈ l, sizable it.2) →
      l.foldlM (fun b it => allocUniform b it.2) (zeroBytes a c) =
        some (zeroBytes (((stageOf .VS l).map allocTarget).foldl max a)
          (((stageOf .FS l).map allocTarget).foldl max c)) := by
  intro l
  induction l with
  | nil => intro a c _; rfl
  | cons it rest ih =>
    intro a c h
    have hrest : ∀ x ∈ rest, sizable x.2 := fun x hx => h x (List.mem_cons_of_mem _ hx)
    rw [List.foldlM_cons, allocUniform_zeroBytes _ _ _ (h it (List.mem_cons_self _ _))]
    cases hs : it.2.m_shader
    · simp only [Option.bind_eq_bind, Option.some_bind]
      rw [ih _ _ hrest, stageOf_cons_same hs, stageOf_cons_other (s := .FS) (by rw [hs]; decide)]
      rfl
    · simp only [Option.bind_eq_bind, Option.some_bind]
      rw [ih _ _ hrest, stageOf_cons_same hs, stageOf_cons_other (s := .VS) (by rw [hs]; decide)]
      rfl

theorem allocFold_sizable :
    ∀ (l : List (String × Uniform)) (b b' : UniformBytes),
      l.foldlM (fun b it => allocUniform b it.2) b = some b' → ∀ it ∈ l, sizable it.2 := by
  intro l
  induction l with
  | nil => intro _ _ _ it hit; simp at hit
  | cons x rest ih =>
    intro b b' h it hit
    rw [List.foldlM_cons] at h
    cases hx : allocUniform b x.2 with
    | none => rw [hx] at h; simp at h
    | some b1 =>
      rw [hx] at h
      simp only [Option.bind_eq_bind, Option.some_bind] at h
      rcases List.mem_cons.mp hit with rfl | hit
      · exact allocUniform_sizable hx
      · exact ih b1 b' h it hit

theorem allocBytes_foldlM (m : UniformMaps) :
    allocBytes m =
      (m.vs ++ m.fs).foldlM (fun b it => allocUniform b it.2) { vertex := [], fragment := [] } := by
  simp [allocBytes, UniformMaps.toList, List.foldlM_append]

theorem allocBytes_eq (m : UniformMaps) (h : ∀ it ∈ m.vs ++ m.fs, sizable it.2) :
    allocBytes m =
      some (zeroBytes (maxOf ((descriptorsOf m .VS).map allocTarget))
        (maxOf ((descriptorsOf m .FS).map allocTarget))) := by
  rw [allocBytes_foldlM]
  exact allocFold_zeroBytes (m.vs ++ m.fs) 0 0 h

/-- The sizing loops return only when every descriptor is sizable. -/
theorem allocBytes_sizable {m : UniformMaps} {b : UniformBytes} (h : allocBytes m = some b) :
    ∀ it ∈ m.vs ++ m.fs, sizable it.2 := by
  rw [allocBytes_foldlM] at h
  exact allocFold_sizable _ _ _ h

theorem allocBytes_unsized {m : UniformMaps} {it : String × Uniform} (hit : it ∈ m.vs ++ m.fs)
    (h : ¬ sizable it.2) : allocBytes m = none := by
  cases hb : allocBytes m with
  | none => rfl
  | some b => exact absurd (allocBytes_sizable hb it hit) h

theorem foldl_max_eq (l : List Nat) (a : Nat) : l.foldl max a = max a (maxOf l) := by
  unfold maxOf
  induction l generalizing a with
  | nil => simp
  | cons x rest ih =>
    rw [List.foldl_cons, List.foldl_cons, ih, ih (max 0 x)]
    omega

theorem maxOf_cons (x : Nat) (l : List Nat) : maxOf (x :: l) = max x (maxOf l) := by
  unfold maxOf
  rw [List.foldl_cons, foldl_max_eq]
  unfold maxOf
  omega

theorem le_maxOf {l : List Nat} {x : Nat} (h : x ∈ l) : x ≤ maxOf l := by
  induction l with
  | nil => simp at h
  | cons y rest ih =>
    rw [maxOf_cons]
    rcases List.mem_cons.mp h with h | h
    · subst h; omega
    · have := ih h; omega

theorem maxOf_mem {l : List Nat} (h : l ≠ []) : maxOf l ∈ l := by
  induction l with
  | nil => exact absurd rfl h
  | cons y rest ih =>
    rw [maxOf_cons]
    by_cases hr : rest = []
    · subst hr
      simp [maxOf]
    · have := ih hr
      by_cases hle : maxOf rest ≤ y
      · rw [Nat.max_eq_left hle]; exact List.mem_cons_self _ _
      · rw [Nat.max_eq_right (by omega)]; exact List.mem_cons_of_mem _ this

theorem maxOf_eq_zero_iff (l : List Nat) : maxOf l = 0 ↔ ∀ x ∈ l, x = 0 := by
  constructor
  · intro h x hx
    have := le_maxOf hx
    omega
  · intro h
    by_cases hl : l = []
    · subst hl; rfl
    · exact h _ (maxOf_mem hl)

theorem UniformBytes.get_zeroBytes (a c : Nat) (s : ShaderType) :
    (zeroBytes a c).get s = List.replicate (match s with | .VS => a | .FS => c) 0 := by
  cases s <;> rfl

/-- The mirror of each stage after the sizing loops have returned. -/
theorem allocBytes_get {m : UniformMaps} {b : UniformBytes} (h : allocBytes m = some b)
    (s : ShaderType) :
    b.get s = List.replicate (maxOf ((descriptorsOf m s).map allocTarget)) 0 := by
  rw [allocBytes_eq m (allocBytes_sizable h)] at h
  simp only [Option.some.injEq] at h
  subst h
  cases s <;> rfl

theorem allocUniformBytes_some {p p' : D3D11ShaderProgram} (h : allocUniformBytes p = some p') :
    allocBytes p.m_uniforms = some p'.uniformBytes ∧ p'.m_uniforms = p.m_uniforms := by
  unfold allocUniformBytes at h
  cases hb : allocBytes p.m_uniforms with
  | none => rw [hb] at h; simp at h
  | some b =>
    rw [hb] at h
    simp only [Option.map_some', Option.some.injEq] at h
    subst h
    exact ⟨rfl, rfl⟩

/-- The method `allocUniformBytes` returns when every descriptor is sizable, and the
mirror of each stage it leaves. -/
theorem allocUniformBytes_get (p : D3D11ShaderProgram)
    (h : ∀ it ∈ p.m_uniforms.vs ++ p.m_uniforms.fs, sizable it.2) :
    ∃ p', allocUniformBytes p = some p' ∧ p'.m_uniforms = p.m_uniforms ∧
      ∀ s, p'.uniformBytes.get s =
        List.replicate (maxOf ((descriptorsOf p.m_uniforms s).map allocTarget)) 0 := by
  have hb := allocBytes_eq p.m_uniforms h
  refine ⟨p.setUniformBytes _, by unfold allocUniformBytes; rw [hb]; rfl, rfl, fun s => ?_⟩
  exact allocBytes_get hb s

theorem allocTarget_of_sizable {u : Uniform} (h : sizable u) :
    (allocTarget u : Int) = u.m_location + u.m_sizeInBytes := by
  unfold allocTarget
  exact Int.toNat_of_nonneg h.1

theorem descriptorsOf_of_stages {m : UniformMaps}
    (hvs : ∀ it ∈ m.vs, it.2.m_shader = ShaderType.VS)
    (hfs : ∀ it ∈ m.fs, it.2.m_shader = ShaderType.FS) (s : ShaderType) :
    descriptorsOf m s = (m.get s).map Prod.snd := by
  unfold descriptorsOf stageOf
  rw [List.map_append, List.filter_append]
  cases s
  · have h1 : (m.vs.map Prod.snd).filter (fun u => u.m_shader = ShaderType.VS) =
        m.vs.map Prod.snd := by
      rw [List.filter_eq_self]
      intro u hu
      obtain ⟨it, hit, rfl⟩ := List.mem_map.mp hu
      simp [hvs it hit]
    have h2 : (m.fs.map Prod.snd).filter (fun u => u.m_shader = ShaderType.VS) = [] := by
      rw [List.filter_eq_nil_iff]
      intro u hu
      obtain ⟨it, hit, rfl⟩ := List.mem_map.mp hu
      simp [hfs it hit]
    rw [h1, h2]
    simp [UniformMaps.get]
  · have h1 : (m.vs.map Prod.snd).filter (fun u => u.m_shader = ShaderType.FS) = [] := by
      rw [List.filter_eq_nil_iff]
      intro u hu
      obtain ⟨it, hit, rfl⟩ := List.mem_map.mp hu
      simp [hvs it hit]
    have h2 : (m.fs.map Prod.snd).filter (fun u => u.m_shader = ShaderType.FS) =
        m.fs.map Prod.snd := by
      rw [List.filter_eq_self]
      intro u hu
      obtain ⟨it, hit, rfl⟩ := List.mem_map.mp hu
      simp [hfs it hit]
    rw [h1, h2]
    simp [UniformMaps.get]

theorem UniformMap.find_assign_same (m : UniformMap) (k : String) (u : Uniform) :
    UniformMap.find (UniformMap.assign m k u) k = some u := by
  induction m with
  | nil => simp [UniformMap.assign, UniformMap.find]
  | cons e rest ih =>
    obtain ⟨k', u'⟩ := e
    unfold UniformMap.assign
    by_cases h : k = k'
    · rw [if_pos h]
      simp [UniformMap.find, h]
    · rw [if_neg h]
      by_cases hl : stringLess k k' = true
      · rw [if_pos hl]
        simp [UniformMap.find]
      · rw [if_neg hl]
        simp only [UniformMap.find, if_neg h]
        exact ih

theorem UniformMap.find_assign_other (m : UniformMap) {k j : String} (u : Uniform) (h : j ≠ k) :
    UniformMap.find (UniformMap.assign m k u) j = UniformMap.find m j := by
  induction m with
  | nil => simp [UniformMap.assign, UniformMap.find, h]
  | cons e rest ih =>
    obtain ⟨k', u'⟩ := e
    unfold UniformMap.assign
    by_cases hk : k = k'
    · rw [if_pos hk]
      subst hk
      simp [UniformMap.find, h]
    · rw [if_neg hk]
      by_cases hl : stringLess k k' = true
      · rw [if_pos hl]
        simp [UniformMap.find, h]
      · rw [if_neg hl]
        by_cases hj : j = k'
        · simp [UniformMap.find, hj]
        · simp only [UniformMap.find, if_neg hj]
          exact ih

theorem UniformMaps.get_assign_same (m : UniformMaps) (s : ShaderType) (k : String) (u : Uniform) :
    (m.assign s k u).get s = UniformMap.assign (m.get s) k u := by
  cases s <;> rfl

theorem UniformMaps.get_assign_other (m : UniformMaps) {s t : ShaderType} (k : String)
    (u : Uniform) (h : t ≠ s) : (m.assign s k u).get t = m.get t := by
  cases s <;> cases t <;> first | rfl | exact absurd rfl h

theorem memberUniform_some (env : Env) (compiler : Compiler) (type : SPIRType)
    (shaderType : ShaderType) (i memberType : Nat)
    (h : env.mapUniformTypeSize (env.mapUniformType (compiler.get_type memberType)) ≠ 0) :
    memberUniform env compiler type shaderType i memberType =
      some
        { m_name := compiler.get_member_name type.self i
          m_shader := shaderType
          m_sizeInBytes := wrapI32 (compiler.get_declared_struct_member_size type i)
          m_type := env.mapUniformType (compiler.get_type memberType)
          m_count := wrapI32 (Int.tdiv (wrapI32 (compiler.get_declared_struct_member_size type i))
            (env.mapUniformTypeSize (env.mapUniformType (compiler.get_type memberType))))
          m_location := wrapI32 (compiler.type_struct_member_offset type i)
          m_value := [] } := by
  unfold memberUniform
  dsimp only
  rw [if_neg h]

theorem memberUniform_name {env : Env} {compiler : Compiler} {type : SPIRType}
    {shaderType : ShaderType} {i memberType : Nat} {desc : Uniform}
    (h : memberUniform env compiler type shaderType i memberType = some desc) :
    desc.m_name = compiler.get_member_name type.self i := by
  unfold memberUniform at h
  dsimp only at h
  split at h
  · simp at h
  · simp only [Option.some.injEq] at h
    subst h
    rfl

theorem memberFold_defined (env : Env) (compiler : Compiler) (type : SPIRType)
    (shaderType : ShaderType) :
    ∀ (l : List (Nat × Nat)) (m : UniformMaps),
      (∀ im ∈ l, env.mapUniformTypeSize (env.mapUniformType (compiler.get_type im.2)) ≠ 0) →
      ∃ m', l.foldlM (memberStep env compiler type shaderType) m = some m' := by
  intro l
  induction l with
  | nil => intro m _; exact ⟨m, rfl⟩
  | cons im rest ih =>
    intro m h
    rw [List.foldlM_cons]
    unfold memberStep
    rw [memberUniform_some env compiler type shaderType im.1 im.2 (h im (List.mem_cons_self _ _))]
    simp only [Option.map_some', Option.bind_eq_bind, Option.some_bind]
    exact ih _ (fun jm hjm => h jm (List.mem_cons_of_mem _ hjm))

theorem memberFold_keeps {env : Env} {compiler : Compiler} {type : SPIRType}
    {shaderType : ShaderType} {k : String} :
    ∀ (l : List (Nat × Nat)) (m m' : UniformMaps),
      l.foldlM (memberStep env compiler type shaderType) m = some m' →
      (∀ im ∈ l, compiler.get_member_name type.self im.1 ≠ k) →
      UniformMap.find (m'.get shaderType) k = UniformMap.find (m.get shaderType) k := by
  intro l
  induction l with
  | nil =>
    intro m m' h _
    simp only [List.foldlM_nil] at h
    cases h
    rfl
  | cons im rest ih =>
    intro m m' h hne
    rw [List.foldlM_cons] at h
    cases h1 : memberStep env compiler type shaderType m im with
    | none => rw [h1] at h; simp at h
    | some m1 =>
      rw [h1] at h
      simp only [Option.bind_eq_bind, Option.some_bind] at h
      rw [ih m1 m' h (fun jm hjm => hne jm (List.mem_cons_of_mem _ hjm))]
      unfold memberStep at h1
      cases hd : memberUniform env compiler type shaderType im.1 im.2 with
      | none => rw [hd] at h1; simp at h1
      | some desc =>
        rw [hd] at h1
        simp only [Option.map_some', Option.some.injEq] at h1
        subst h1
        rw [UniformMaps.get_assign_same]
        apply UniformMap.find_assign_other
        rw [memberUniform_name hd]
        exact fun e => hne im (List.mem_cons_self _ _) e.symm

theorem enum_split {α : Type} (l : List α) (i : Nat) (hi : i < l.length) :
    l.enum = (l.take i).enum ++ (i, l[i]) :: List.enumFrom (i + 1) (l.drop (i + 1)) := by
  have h1 : l = l.take i ++ l[i] :: l.drop (i + 1) := by
    rw [← List.drop_eq_getElem_cons hi, List.take_append_drop]
  have hlen : (l.take i).length = i := by
    rw [List.length_take]; omega
  conv_lhs => rw [h1]
  unfold List.enum
  rw [List.enumFrom_append, List.enumFrom_cons, hlen, Nat.zero_add]

theorem addUniform_block {env : Env} {p : D3D11ShaderProgram} {m : UniformMaps}
    {resource : Resource} {shaderType : ShaderType} {compiler : Compiler}
    (hc : p.compiler shaderType = some compiler)
    (hb : (compiler.get_type resource.base_type_id).basetype ≠ BaseType.SampledImage) :
    addUniform env p m resource shaderType =
      (compiler.get_type resource.base_type_id).member_types.enum.foldlM
        (memberStep env compiler (compiler.get_type resource.base_type_id) shaderType) m := by
  unfold addUniform
  rw [hc]
  dsimp only
  rw [if_neg hb]
  rfl

theorem wrapI32_of_inRange {x : Int} (h0 : 0 ≤ x) (h1 : x < 2 ^ 31) : wrapI32 x = x := by
  unfold wrapI32
  rw [Int.emod_eq_of_lt (by omega) (by omega)]
  omega

theorem tdiv_count {a b : Int} (ha0 : 0 ≤ a) (ha1 : a < 2 ^ 31) (hb : 0 < b) :
    wrapI32 (Int.tdiv a b) = a / b := by
  rw [Int.tdiv_eq_ediv ha0 (Int.le_of_lt hb)]
  apply wrapI32_of_inRange (Int.ediv_nonneg ha0 (Int.le_of_lt hb))
  exact lt_of_le_of_lt (Int.ediv_le_self b ha0) ha1

theorem mem_descriptorsOf {m : UniformMaps} {it : String × Uniform}
    (h : it ∈ m.vs ++ m.fs) : it.2 ∈ descriptorsOf m it.2.m_shader := by
  unfold descriptorsOf stageOf
  rw [List.mem_filter]
  exact ⟨List.mem_map_of_mem _ h, by simp⟩

theorem allocBytes_length_ge {m : UniformMaps} {b : UniformBytes} {it : String × Uniform}
    (hb : allocBytes m = some b) (h : it ∈ m.vs ++ m.fs) :
    allocTarget it.2 ≤ (b.get it.2.m_shader).length := by
  have hmem := List.mem_map_of_mem allocTarget (mem_descriptorsOf h)
  have hle := le_maxOf hmem
  rw [allocBytes_get hb, List.length_replicate]
  exact hle

theorem toU32_inj {a b : Int} (ha0 : -2 ^ 31 ≤ a) (ha1 : a < 2 ^ 31) (hb0 : -2 ^ 31 ≤ b)
    (hb1 : b < 2 ^ 31) (h : toU32 a = toU32 b) : a = b := by
  unfold toU32 at h
  omega

theorem toU32_ne_small {a : Int} (ha0 : -2 ^ 31 ≤ a) (ha1 : a < 2 ^ 31) (h0 : a ≠ 0)
    (h1 : a ≠ 1) : toU32 a ≠ 0 ∧ toU32 a ≠ 1 := by
  unfold toU32
  omega

theorem isHaveNormalUniform_iff (uniformMap : UniformMap) :
    isHaveNormalUniform uniformMap = true ↔ hasOrdinary uniformMap := by
  unfold isHaveNormalUniform hasOrdinary
  rw [List.any_eq_true]
  constructor
  · rintro ⟨it, hit, h⟩
    exact ⟨it, hit, by simpa using h⟩
  · rintro ⟨it, hit, h⟩
    exact ⟨it, hit, by simpa using h⟩

theorem uboBindings_eq (m : UniformMaps) :
    uboBindings m =
      (if hasOrdinary m.vs then [uboLayoutBinding 0 StageFlag.VERTEX_BIT] else []) ++
        (if hasOrdinary m.fs then [uboLayoutBinding 1 StageFlag.FRAGMENT_BIT] else []) := by
  unfold uboBindings
  by_cases hv : hasOrdinary m.vs <;> by_cases hf : hasOrdinary m.fs <;>
    simp [hv, hf, (isHaveNormalUniform_iff _).mpr, isHaveNormalUniform_iff]

theorem pushZeros_enough :
    ∀ (n : Nat) (l : List Byte) (t : Nat), t - l.length ≤ n →
      pushZeros n l t = l ++ List.replicate (t - l.length) 0 := by
  intro n
  induction n with
  | zero =>
    intro l t h
    have : t - l.length = 0 := by omega
    rw [this]
    simp [pushZeros]
  | succ n ih =>
    intro l t h
    rw [pushZeros]
    by_cases hlt : l.length < t
    · rw [if_pos hlt, ih (l ++ [0]) t (by simp; omega)]
      have : t - l.length = (t - (l ++ [0]).length) + 1 := by simp; omega
      rw [this, List.replicate_succ]
      simp
    · rw [if_neg hlt]
      have : t - l.length = 0 := by omega
      rw [this]
      simp

theorem growTo_length_ge (l : List Byte) (bytes : Int) (h : 0 ≤ bytes) :
    ∃ out, growTo l bytes = some out ∧ ¬ out.length < toSizeT bytes := by
  refine ⟨_, growTo_eq l bytes h, ?_⟩
  rw [List.length_append, List.length_replicate]
  omega

theorem maxOf_perm {l₁ l₂ : List Nat} (h : l₁.Perm l₂) : maxOf l₁ = maxOf l₂ := by
  unfold maxOf
  apply List.Perm.foldl_eq' h
  intro x _ y _ z
  omega

theorem descriptorsOf_perm {m q : UniformMaps} (hv : q.vs.Perm m.vs) (hf : q.fs.Perm m.fs)
    (s : ShaderType) : (descriptorsOf q s).Perm (descriptorsOf m s) := by
  unfold descriptorsOf stageOf
  exact ((hv.append hf).map _).filter _

theorem allocBytes_perm {m q : UniformMaps} (hv : q.vs.Perm m.vs) (hf : q.fs.Perm m.fs) :
    allocBytes q = allocBytes m := by
  by_cases h : ∀ it ∈ m.vs ++ m.fs, sizable it.2
  · have hq : ∀ it ∈ q.vs ++ q.fs, sizable it.2 :=
      fun it hit => h it ((hv.append hf).mem_iff.mp hit)
    rw [allocBytes_eq m h, allocBytes_eq q hq,
      maxOf_perm ((descriptorsOf_perm hv hf .VS).map allocTarget),
      maxOf_perm ((descriptorsOf_perm hv hf .FS).map allocTarget)]
  · have hm : allocBytes m = none := by
      cases hb : allocBytes m with
      | none => rfl
      | some b => exact absurd (allocBytes_sizable hb) h
    have hq : allocBytes q = none := by
      cases hb : allocBytes q with
      | none => rfl
      | some b =>
        exact absurd (fun it hit => allocBytes_sizable hb it ((hv.append hf).mem_iff.mpr hit)) h
    rw [hm, hq]



/-! ## The claims -/

/-- C1, the code at the failing input: the fragment map of the scenario holds a single
descriptor, the sampler at binding 2, hence no ordinary descriptor, and
`isHaveNormalUniform` finds none. `allocUniformBytes` returns and leaves the fragment
stage a mirror of 2 + 4 = 6 bytes, not an empty one, on these maps and after a full
`createShaderProgram` of the scenario's bytecode. -/
theorem texture_only_stage_gets_mirror_bytes :
    Scenario.maps.fs.filter (fun it => it.2.m_type ≠ ShaderParamType.SPT_TEXTURE) = [] ∧
    isHaveNormalUniform Scenario.maps.fs = false ∧
    (allocUniformBytes Scenario.linked).map
        (fun p => (p.uniformBytes.get ShaderType.FS).length) = some 6 ∧
    (createShaderProgram Scenario.env Scenario.renderer Scenario.unlinked "v" "f").map
        (fun x => (x.2.1.m_uniforms, x.2.1.m_fragmentShaderUniformBytes)) =
      some (Scenario.maps, [0, 0, 0, 0, 0, 0]) := by
  refine ⟨by decide, by decide, by decide, by decide⟩

/-- C2: in a linked program whose copies are all in bounds, take an ordinary
descriptor `u` of known type that has been given a value, and whose byte range no
other copied descriptor of its stage overlaps. Then `updateVkUniformBuffer` returns,
the bytes of the stage's mirror at `[location, location + size)` are the first `size`
bytes of the value (the whole value when it has exactly `size` bytes), the device
buffer of the stage exists and holds the same bytes there, and the step of `u` itself
changes no byte outside that range and nothing in the other stage's mirror. -/
theorem setValue_then_update_writes_range (env : Env) (r : VKRenderer) (p : D3D11ShaderProgram)
    (uniformsInstance : UniformsInstance) (pre post : List (String × Uniform)) (k : String)
    (u : Uniform)
    (hlinked : p.m_isLinked = true)
    (hsplit : p.m_uniforms.vs ++ p.m_uniforms.fs = pre ++ (k, u) :: post)
    (hbounds : CopiesInBounds env p.m_uniforms p.uniformBytes)
    (hknown : u.m_type ≠ ShaderParamType.SPT_UNKNOWN)
    (hordinary : u.m_type ≠ ShaderParamType.SPT_TEXTURE)
    (hvalue : u.m_value ≠ [])
    (hapart : ∀ it ∈ pre ++ post, apartFrom env u.m_shader u.m_location u.m_sizeInBytes it.2) :
    ∃ p' inst' r' buffer,
      updateVkUniformBuffer env r p uniformsInstance = some (p', inst', r') ∧
      byteRange (p'.uniformBytes.get u.m_shader) u.m_location u.m_sizeInBytes =
        u.m_value.take u.m_sizeInBytes.toNat ∧
      inst'.buffer u.m_shader = some buffer ∧
      byteRange buffer.contents u.m_location u.m_sizeInBytes =
        u.m_value.take u.m_sizeInBytes.toNat ∧
      (∀ b c, organizeUniform env b u = some c →
        ∀ s i, (s ≠ u.m_shader ∨ i < u.m_location.toNat ∨
            u.m_location.toNat + u.m_sizeInBytes.toNat ≤ i) →
          (c.get s)[i]? = (b.get s)[i]?) := by
  have hcu : copies env u := ⟨by rw [getValue_of_ne_nil hvalue]; exact hvalue, hknown, hordinary⟩
  have hall : ∀ it ∈ pre ++ (k, u) :: post,
      copies env it.2 → copyInBounds env p.uniformBytes it.2 := by
    rw [← hsplit]; exact hbounds
  have hinu : copyInBounds env p.uniformBytes u := hall (k, u) (by simp) hcu
  obtain ⟨b1, hb1, hl1⟩ := organizeList_defined pre p.uniformBytes
    (fun it hit => hall it (List.mem_append_left _ hit))
  have hinu1 := copyInBounds_of_sameLengths hl1 hinu
  obtain ⟨b2, hb2, hl2⟩ := organizeUniform_defined (b := b1) (u := u) (fun _ => hinu1)
  have hl12 := UniformBytes.sameLengths_trans hl1 hl2
  have hpost : ∀ it ∈ post, copies env it.2 → copyInBounds env b2 it.2 := fun it hit hc =>
    copyInBounds_of_sameLengths hl12
      (hall it (List.mem_append_right _ (List.mem_cons_of_mem _ hit)) hc)
  obtain ⟨b3, hb3, _⟩ := organizeList_defined post b2 hpost
  have horg : organizeUniformBytes env p.m_uniforms p.uniformBytes = some b3 := by
    rw [organizeUniformBytes_eq, hsplit, List.foldlM_append, hb1]
    simp only [Option.bind_eq_bind, Option.some_bind, List.foldlM_cons, hb2]
    exact hb3
  have hrange : byteRange (b3.get u.m_shader) u.m_location u.m_sizeInBytes =
      u.m_value.take u.m_sizeInBytes.toNat := by
    rw [organizeList_keeps_range hinu.1 hinu.2.1 post b2 b3 hb3 hpost
      (fun it hit => hapart it (List.mem_append_right _ hit))]
    rw [organizeUniform_writes_range hb2 hcu hinu1, getValue_of_ne_nil hvalue]
  obtain ⟨inst', r', hup, hbuf⟩ :=
    ensureAndUpload_uploads env r (p.setUniformBytes b3) uniformsInstance
  obtain ⟨buffer, hbuffer, hcontents, _⟩ := hbuf u.m_shader
  refine ⟨p.setUniformBytes b3, inst', r', buffer, ?_, hrange, hbuffer, ?_, ?_⟩
  · rw [updateVkUniformBuffer_linked env r p uniformsInstance hlinked, horg]
    simp only [Option.some_bind, hup, Option.map_some']
  · rw [hcontents]
    exact hrange
  · intro b c hbc s i hi
    rw [organizeUniform_copy hcu] at hbc
    cases hm : memcpy (b.get u.m_shader) u.m_location (getValue env u)
        (toSizeT u.m_sizeInBytes) with
    | none => rw [hm] at hbc; simp at hbc
    | some out =>
      rw [hm] at hbc
      simp only [Option.map_some', Option.some.injEq] at hbc
      subst hbc
      by_cases hs : s = u.m_shader
      · subst hs
        rw [UniformBytes.get_set_same]
        apply memcpy_getElem? hm
        rw [toSizeT_of_nonneg hinu.2.1 hinu.2.2.1]
        rcases hi with hi | hi
        · exact absurd rfl hi
        · exact hi
      · rw [UniformBytes.get_set_other _ _ hs]

/-- C2 at a concrete input: `intensity` (4 bytes at offset 0 of the vertex mirror) is
given the six bytes `00 00 00 3f 09 09`; after the update the mirror and the vertex
device buffer hold `00 00 00 3f` (0.5f) there. -/
theorem setValue_then_update_writes_range_witness :
    CopiesInBounds Scenario.env (Scenario.withIntensity [0, 0, 0, 63, 9, 9]).m_uniforms
        (Scenario.withIntensity [0, 0, 0, 63, 9, 9]).uniformBytes ∧
    ∃ p' inst' r' buffer,
      updateVkUniformBuffer Scenario.env Scenario.renderer
          (Scenario.withIntensity [0, 0, 0, 63, 9, 9]) Scenario.fresh = some (p', inst', r') ∧
      byteRange (p'.uniformBytes.get ShaderType.VS) 0 4 = [0, 0, 0, 63] ∧
      inst'.buffer ShaderType.VS = some buffer ∧
      byteRange buffer.contents 0 4 = [0, 0, 0, 63] := by
  refine ⟨by decide, ?_⟩
  obtain ⟨p', inst', r', buffer, h1, h2, h3, h4, _⟩ :=
    setValue_then_update_writes_range Scenario.env Scenario.renderer
      (Scenario.withIntensity [0, 0, 0, 63, 9, 9]) Scenario.fresh [] [("u_Tex", Scenario.uTex)]
      "intensity" { Scenario.intensity with m_value := [0, 0, 0, 63, 9, 9] }
      rfl rfl (by decide) (by decide) (by decide) (by decide) (by decide)
  exact ⟨p', inst', r', buffer, h1, h2, h3, h4⟩

/-- C3: for a linked program whose copies are all in bounds, `updateVkUniformBuffer`
returns, keeps the lengths of both mirrors, and the allocation counter changes if and
only if the instance lacks its vertex or its fragment buffer or one of them has an
allocated size different from the length of the corresponding mirror. In that case
exactly two device buffers and one descriptor set are allocated; otherwise the
renderer is untouched and the instance keeps its descriptor set, its buffer
descriptors and its buffer handles. -/
theorem realloc_iff_lacks_or_mismatch (env : Env) (r : VKRenderer) (p : D3D11ShaderProgram)
    (uniformsInstance : UniformsInstance)
    (hlinked : p.m_isLinked = true)
    (hbounds : CopiesInBounds env p.m_uniforms p.uniformBytes) :
    ∃ p' inst' r',
      updateVkUniformBuffer env r p uniformsInstance = some (p', inst', r') ∧
      p.uniformBytes.sameLengths p'.uniformBytes ∧
      (allocationCount r' ≠ allocationCount r ↔
        (lacksOrMismatch p uniformsInstance .VS ∨ lacksOrMismatch p uniformsInstance .FS)) ∧
      ((lacksOrMismatch p uniformsInstance .VS ∨ lacksOrMismatch p uniformsInstance .FS) →
        r'.events = r.events ++
          [Event.newVKBuffer p.m_vertexShaderUniformBytes.length,
            Event.newVKBuffer p.m_fragmentShaderUniformBytes.length,
            Event.vkAllocateDescriptorSets p.m_vkDescriptorSetLayout]) ∧
      (¬ (lacksOrMismatch p uniformsInstance .VS ∨ lacksOrMismatch p uniformsInstance .FS) →
        r' = r ∧ inst'.m_vkDescriptorSet = uniformsInstance.m_vkDescriptorSet ∧
          inst'.m_vkShaderUniformBufferDescriptors =
            uniformsInstance.m_vkShaderUniformBufferDescriptors ∧
          ∀ s, (inst'.buffer s).map VKBuffer.getVkBuffer =
            (uniformsInstance.buffer s).map VKBuffer.getVkBuffer) := by
  obtain ⟨b, hb, hl⟩ := organizeUniformBytes_defined hbounds
  have hl' : p.uniformBytes.sameLengths (p.setUniformBytes b).uniformBytes := hl
  have hcond : needsRealloc (p.setUniformBytes b) uniformsInstance = true ↔
      (lacksOrMismatch p uniformsInstance .VS ∨ lacksOrMismatch p uniformsInstance .FS) := by
    rw [needsRealloc_iff, lacksOrMismatch_congr uniformsInstance hl' .VS,
      lacksOrMismatch_congr uniformsInstance hl' .FS]
  have hupd := updateVkUniformBuffer_linked env r p uniformsInstance hlinked
  rw [hb] at hupd
  simp only [Option.some_bind] at hupd
  cases h : needsRealloc (p.setUniformBytes b) uniformsInstance with
  | true =>
    obtain ⟨inst', r', vb, fb, h1, _, _, _, _, _, _, hev⟩ :=
      ensureAndUpload_realloc env r (p.setUniformBytes b) uniformsInstance h
    have hcnt := allocationCount_realloc hev
    have hc := hcond.mp h
    refine ⟨p.setUniformBytes b, inst', r', ?_, hl', ?_, ?_, fun hn => absurd hc hn⟩
    · rw [hupd, h1]; rfl
    · exact ⟨fun _ => hc, fun _ => by omega⟩
    · intro _
      rw [hev]
      have h1 : (p.setUniformBytes b).m_vertexShaderUniformBytes.length =
          p.m_vertexShaderUniformBytes.length := hl.1
      have h2 : (p.setUniformBytes b).m_fragmentShaderUniformBytes.length =
          p.m_fragmentShaderUniformBytes.length := hl.2
      unfold reallocEvents
      rw [h1, h2]
      rfl
  | false =>
    obtain ⟨inst', vb, fb, h1, h2, h3, _, _, _, _, h8, h9, h10, h11⟩ :=
      ensureAndUpload_keep env r (p.setUniformBytes b) uniformsInstance h
    have hc : ¬ (lacksOrMismatch p uniformsInstance .VS ∨
        lacksOrMismatch p uniformsInstance .FS) := by
      rw [← hcond, h]; simp
    refine ⟨p.setUniformBytes b, inst', r, ?_, hl', ?_, fun hn => absurd hn hc, ?_⟩
    · rw [hupd, h1]; rfl
    · exact ⟨fun hne => absurd rfl hne, fun hn => absurd hn hc⟩
    · intro _
      refine ⟨rfl, h8, h9, fun s => ?_⟩
      cases s
      · show inst'.m_vkVertexShaderUniformBuffer.map _ =
          uniformsInstance.m_vkVertexShaderUniformBuffer.map _
        rw [h2, h10]; rfl
      · show inst'.m_vkFragmentShaderUniformBuffer.map _ =
          uniformsInstance.m_vkFragmentShaderUniformBuffer.map _
        rw [h3, h11]; rfl

/-- C3 at two concrete inputs: a fresh instance makes the update allocate two buffers
and a descriptor set; the instance left by an earlier bind, whose buffer sizes 4 and 6
equal the mirror lengths, makes it allocate nothing. -/
theorem realloc_iff_lacks_or_mismatch_witness :
    (∃ p' inst' r',
      updateVkUniformBuffer Scenario.env Scenario.renderer Scenario.linked Scenario.fresh =
        some (p', inst', r') ∧
      r'.events = [Event.newVKBuffer 4, Event.newVKBuffer 6,
        Event.vkAllocateDescriptorSets (some 103)]) ∧
    (∃ p' inst' r',
      updateVkUniformBuffer Scenario.env Scenario.renderer Scenario.linked Scenario.bound =
        some (p', inst', r') ∧
      r' = Scenario.renderer ∧ allocationCount r' = allocationCount Scenario.renderer) := by
  constructor
  · obtain ⟨p', inst', r', h1, _, _, h4, _⟩ :=
      realloc_iff_lacks_or_mismatch Scenario.env Scenario.renderer Scenario.linked
        Scenario.fresh rfl (by decide)
    exact ⟨p', inst', r', h1, h4 (by decide)⟩
  · obtain ⟨p', inst', r', h1, _, _, _, h5⟩ :=
      realloc_iff_lacks_or_mismatch Scenario.env Scenario.renderer Scenario.linked
        Scenario.bound rfl (by decide)
    have h := (h5 (by decide)).1
    exact ⟨p', inst', r', h1, h, by rw [h]⟩

/-- C4, the code at the failing input: `bindUniforms` on a program that is not linked
still calls `vkUpdateDescriptorSets` and still records `vkCmdBindDescriptorSets`. With
a program that never linked and a fresh instance the update carries no write and the
bind command carries a null layout and a null descriptor set; with a program whose
later link failed and an instance bound before, the update carries the three writes of
the earlier link. Only the instance (and the mirrors) are left unchanged. -/
theorem bindUniforms_unlinked_still_binds :
    Scenario.unlinked.m_isLinked = false ∧
    (bindUniforms Scenario.env Scenario.renderer Scenario.unlinked [] Scenario.fresh).map
        (fun x => (x.2.1, x.2.2.1, x.2.2.2.events)) =
      some (Scenario.fresh, [Command.vkCmdBindDescriptorSets none none],
        [Event.vkUpdateDescriptorSets []]) ∧
    Scenario.stale.m_isLinked = false ∧
    (bindUniforms Scenario.env Scenario.renderer Scenario.stale [] Scenario.bound).map
        (fun x => (x.2.1, x.2.2.1, x.2.2.2.events)) =
      some (Scenario.bound, [Command.vkCmdBindDescriptorSets (some 104) (some 102)],
        [Event.vkUpdateDescriptorSets Scenario.boundWrites]) := by
  refine ⟨rfl, by decide, rfl, by decide⟩

/-- C6, counterexample: both stages have bytecode, reflection yields no descriptor for
either stage, and `createShaderProgram` returns true with `m_isLinked` true. -/
theorem link_succeeds_without_descriptors :
    Scenario.env.getSPIRV "" "" ShaderType.VS ≠ [] ∧
    Scenario.env.getSPIRV "" "" ShaderType.FS ≠ [] ∧
    (createShaderProgram Scenario.env Scenario.renderer Scenario.unlinked "" "").map
        (fun x => (x.1, x.2.1.m_isLinked, x.2.1.m_uniforms)) =
      some (true, true, { vs := [], fs := [] }) := by
  refine ⟨by decide, by decide, by decide⟩

/-- C6 as amended: if both stages have bytecode and both shader modules are created,
then whatever descriptor maps reflection yields (the empty maps included), provided
only that `allocUniformBytes` returns on them, `createShaderProgram` returns true, the
program is linked and holds exactly those maps: the link result is decided by the two
`createShader` calls alone. On maps on which `allocUniformBytes` does not return the
call does not return either; it never returns false. -/
theorem link_result_ignores_reflection (env : Env) (r : VKRenderer) (p : D3D11ShaderProgram)
    (vsSrc psSrc : String) (m : UniformMaps)
    (hcreated : bothShadersCreated env r (env.getSPIRV vsSrc psSrc .VS)
      (env.getSPIRV vsSrc psSrc .FS))
    (hreflect : reflectUniforms env
      (withCompilers env p (env.getSPIRV vsSrc psSrc .VS) (env.getSPIRV vsSrc psSrc .FS)) =
        some m) :
    ((allocBytes m).isSome →
      ∃ p' r', createShaderProgram env r p vsSrc psSrc = some (true, p', r') ∧
        p'.m_isLinked = true ∧ p'.m_uniforms = m) ∧
    (allocBytes m = none → createShaderProgram env r p vsSrc psSrc = none) := by
  refine ⟨fun hsized => ?_, fun hb => ?_⟩
  · obtain ⟨b, hb⟩ := Option.isSome_iff_exists.mp hsized
    obtain ⟨p', r', h1, h2, h3, _⟩ :=
      createShaderProgram_linked env r p vsSrc psSrc m b hcreated hreflect hb
    exact ⟨p', r', h1, h2, h3⟩
  · exact createShaderProgram_unsized env r p vsSrc psSrc m hcreated hreflect hb

/-- C6 as amended, at a concrete input: two modules without resources link. -/
theorem link_result_ignores_reflection_witness :
    bothShadersCreated Scenario.env Scenario.renderer (Scenario.env.getSPIRV "" "" .VS)
        (Scenario.env.getSPIRV "" "" .FS) ∧
    ∃ p' r', createShaderProgram Scenario.env Scenario.renderer Scenario.unlinked "" "" =
        some (true, p', r') ∧
      p'.m_isLinked = true ∧ p'.m_uniforms = { vs := [], fs := [] } :=
  ⟨by decide,
    (link_result_ignores_reflection Scenario.env Scenario.renderer Scenario.unlinked "" ""
      { vs := [], fs := [] } (by decide) (by decide)).1 (by decide)⟩

/-- C7, the code at the failing input: a vertex block with one 4-byte float and a
fragment stage with only a sampler at binding 2. The fragment stage has no ordinary
uniform and the layout built by `createVkDescriptorSetLayout` declares the bindings 0
and 2 only, yet the bind passes three writes to `vkUpdateDescriptorSets`: uniform
buffers at bindings 0 and 1 and the sampler at binding 2. -/
theorem sampler_only_stage_gets_block_write :
    isHaveNormalUniform Scenario.maps.fs = false ∧
    Scenario.linked.m_layoutBindings.map (fun b => (b.binding, b.descriptorType)) =
      [(0, DescriptorType.UNIFORM_BUFFER), (2, DescriptorType.COMBINED_IMAGE_SAMPLER)] ∧
    (bindUniforms Scenario.env Scenario.renderer Scenario.linked [] Scenario.fresh).map
        (fun x => x.2.2.2.events) =
      some [Event.newVKBuffer 4, Event.newVKBuffer 6, Event.vkAllocateDescriptorSets (some 103),
        Event.vkUpdateDescriptorSets Scenario.boundWrites] ∧
    Scenario.boundWrites.map (fun w => (w.dstBinding, w.descriptorType)) =
      [(0, DescriptorType.UNIFORM_BUFFER), (1, DescriptorType.UNIFORM_BUFFER),
        (2, DescriptorType.COMBINED_IMAGE_SAMPLER)] := by
  refine ⟨by decide, by decide, by decide, by decide⟩

/-- C8: when the stored index of every texture descriptor can be read,
`updateDescriptorSet` returns and passes to `vkUpdateDescriptorSets` the
uniform-buffer writes followed, texture descriptor by texture descriptor, by exactly
one combined-image-sampler write (`dstBinding` = the descriptor's location) if its
texture resolves to a texture with image info, and by no write but one logged error
if it does not. An unresolved texture removes no other write: the uniform-buffer
writes are those of the instance, and the number of sampler writes is the number of
resolvable texture descriptors. -/
theorem texture_writes_follow_resolution (env : Env) (r : VKRenderer) (p : D3D11ShaderProgram)
    (uniformsInstance : UniformsInstance)
    (hread : ∀ u ∈ textureUniforms p.m_uniforms, (readI32 (getValue env u)).isSome) :
    ∃ writes r',
      buildWrites env r p uniformsInstance = some (writes, r') ∧
      updateDescriptorSet env r p uniformsInstance =
        some (r'.emit (Event.vkUpdateDescriptorSets writes)) ∧
      writes = uniformBufferWrites uniformsInstance ++
        (textureUniforms p.m_uniforms).flatMap (textureWritesOf env uniformsInstance) ∧
      r'.errors = r.errors ++ (textureUniforms p.m_uniforms).flatMap (textureErrorsOf env) ∧
      (∀ u ∈ textureUniforms p.m_uniforms,
        (resolvable env u = true →
          textureErrorsOf env u = [] ∧
          ∃ w, textureWritesOf env uniformsInstance u = [w] ∧
            w.descriptorType = DescriptorType.COMBINED_IMAGE_SAMPLER ∧
            w.dstBinding = toU32 u.m_location ∧
            (0 ≤ u.m_location → u.m_location < 2 ^ 32 → (w.dstBinding : Int) = u.m_location)) ∧
        (resolvable env u = false →
          textureWritesOf env uniformsInstance u = [] ∧
          textureErrorsOf env u = ["vulkan write descriptor set have empty image info."])) ∧
      writes.countP (fun w => w.descriptorType = DescriptorType.COMBINED_IMAGE_SAMPLER) =
        (textureUniforms p.m_uniforms).countP (resolvable env) ∧
      writes.filter (fun w => w.descriptorType = DescriptorType.UNIFORM_BUFFER) =
        uniformBufferWrites uniformsInstance := by
  have hb := buildWrites_eq env r p uniformsInstance
  rw [textureFold_defined _ _ hread] at hb
  refine ⟨_, _, hb, ?_, rfl, rfl, ?_, ?_, ?_⟩
  · unfold updateDescriptorSet
    rw [hb]
    rfl
  · intro u hu
    have hr := hread u hu
    constructor
    · intro hres
      unfold resolvable at hres
      unfold textureErrorsOf textureWritesOf
      cases hx : resolveTexture env u with
      | none => rw [hx] at hres; simp at hres
      | some x =>
        cases x with
        | none => rw [hx] at hres; simp at hres
        | some img =>
          refine ⟨rfl, textureWrite uniformsInstance u img, rfl, rfl, rfl, ?_⟩
          intro h0 h1
          exact toU32_of_nonneg h0 h1
    · intro hres
      unfold resolvable at hres
      unfold textureErrorsOf textureWritesOf
      cases hx : resolveTexture env u with
      | none =>
        unfold resolveTexture at hx
        cases hread : readI32 (getValue env u) with
        | none => rw [hread] at hr; simp at hr
        | some idx => rw [hread] at hx; simp at hx
      | some x =>
        cases x with
        | none => exact ⟨rfl, rfl⟩
        | some img => rw [hx] at hres; simp at hres
  · show List.countP _ (uniformBufferWrites uniformsInstance ++ _) = _
    rw [List.countP_append, countP_sampler_uniformBufferWrites, countP_sampler_textureWrites]
    exact Nat.zero_add _
  · show List.filter _ (uniformBufferWrites uniformsInstance ++ _) = _
    rw [List.filter_append, filter_ubo_uniformBufferWrites, filter_ubo_textureWrites]
    simp

/-- C8 at two concrete inputs: the sampler of the scenario resolves (texture 0) and
gets its write at binding 2 without an error; with the stored index 5, which names no
texture, it gets no write and one error, and the two uniform-buffer writes stay. -/
theorem texture_writes_follow_resolution_witness :
    (∃ writes r',
      buildWrites Scenario.env Scenario.renderer Scenario.linked Scenario.bound =
        some (writes, r') ∧
      writes.countP (fun w => w.descriptorType = DescriptorType.COMBINED_IMAGE_SAMPLER) = 1 ∧
      r'.errors = []) ∧
    (∃ writes r',
      buildWrites Scenario.env Scenario.renderer (Scenario.withTexture [5, 0, 0, 0])
        Scenario.bound = some (writes, r') ∧
      writes = uniformBufferWrites Scenario.bound ∧
      r'.errors = ["vulkan write descriptor set have empty image info."]) := by
  constructor
  · obtain ⟨writes, r', h1, _, _, h4, _, h6, _⟩ :=
      texture_writes_follow_resolution Scenario.env Scenario.renderer Scenario.linked
        Scenario.bound (by decide)
    exact ⟨writes, r', h1, h6, h4⟩
  · obtain ⟨writes, r', h1, _, h3, h4, _⟩ :=
      texture_writes_follow_resolution Scenario.env Scenario.renderer
        (Scenario.withTexture [5, 0, 0, 0]) Scenario.bound (by decide)
    exact ⟨writes, r', h1, h3, h4⟩

/-- C9: whatever the descriptor maps contain and in whatever order, every
uniform-buffer entry of the layout built by `createVkDescriptorSetLayout` has binding
0 if it is the vertex stage's and binding 1 if it is the fragment stage's; every
uniform-buffer write built by `updateDescriptorSet` either addresses the vertex
element of the instance's buffer descriptors and has `dstBinding` 0, or addresses the
fragment element and has `dstBinding` 1; and `createVkUniformBuffer` stores the vertex
buffer's handle in the vertex element and the fragment buffer's in the fragment
element. -/
theorem uniform_buffer_bindings_fixed (env : Env) (r : VKRenderer) (p : D3D11ShaderProgram)
    (uniformsInstance : UniformsInstance) (m : UniformMaps)
    (writes : List WriteDescriptorSet) (r' : VKRenderer)
    (hwrites : buildWrites env r p uniformsInstance = some (writes, r')) :
    (∀ b ∈ layoutBindings m, b.descriptorType = DescriptorType.UNIFORM_BUFFER →
      (b.stageFlags = StageFlag.VERTEX_BIT → b.binding = 0) ∧
      (b.stageFlags = StageFlag.FRAGMENT_BIT → b.binding = 1)) ∧
    (∀ w ∈ writes, w.descriptorType = DescriptorType.UNIFORM_BUFFER →
      (w.pBufferInfo =
          some (ShaderType.VS.index, uniformsInstance.m_vkShaderUniformBufferDescriptors.vs) ∧
        w.dstBinding = 0) ∨
      (w.pBufferInfo =
          some (ShaderType.FS.index, uniformsInstance.m_vkShaderUniformBufferDescriptors.fs) ∧
        w.dstBinding = 1)) ∧
    ((createVkUniformBuffer env r p uniformsInstance).1.m_vkShaderUniformBufferDescriptors.vs.buffer =
        ((createVkUniformBuffer env r p uniformsInstance).1.buffer .VS).bind VKBuffer.getVkBuffer ∧
      (createVkUniformBuffer env r p uniformsInstance).1.m_vkShaderUniformBufferDescriptors.fs.buffer =
        ((createVkUniformBuffer env r p uniformsInstance).1.buffer .FS).bind VKBuffer.getVkBuffer) := by
  refine ⟨?_, ?_, rfl, rfl⟩
  · intro b hb hty
    rw [layoutBindings_eq] at hb
    rcases List.mem_append.mp hb with hb | hb
    · unfold uboBindings at hb
      rcases List.mem_append.mp hb with hb | hb <;>
        · split at hb
          · simp only [List.mem_singleton] at hb
            subst hb
            simp [uboLayoutBinding]
          · simp at hb
    · obtain ⟨u, _, hu⟩ := List.mem_map.mp hb
      subst hu
      simp [samplerLayoutBinding] at hty
  · intro w hw hty
    rw [buildWrites_eq] at hwrites
    obtain ⟨extra, he, hte⟩ := textureFold_writes _ _ _ hwrites
    simp only at he
    rw [he] at hw
    rcases List.mem_append.mp hw with hw | hw
    · rw [uniformBufferWrites_eq] at hw
      rcases List.mem_append.mp hw with hw | hw
      · split at hw
        · simp only [List.mem_singleton] at hw
          subst hw
          exact Or.inl ⟨rfl, rfl⟩
        · simp at hw
      · split at hw
        · simp only [List.mem_singleton] at hw
          subst hw
          exact Or.inr ⟨rfl, rfl⟩
        · simp at hw
    · rw [hte w hw] at hty
      simp at hty

/-- C9 at a concrete input: the writes of a bind of the scenario's program. -/
theorem uniform_buffer_bindings_fixed_witness :
    buildWrites Scenario.env Scenario.renderer Scenario.linked Scenario.bound =
        some (Scenario.boundWrites, Scenario.renderer) ∧
    (∀ w ∈ Scenario.boundWrites, w.descriptorType = DescriptorType.UNIFORM_BUFFER →
      (w.pBufferInfo =
          some (ShaderType.VS.index, Scenario.bound.m_vkShaderUniformBufferDescriptors.vs) ∧
        w.dstBinding = 0) ∨
      (w.pBufferInfo =
          some (ShaderType.FS.index, Scenario.bound.m_vkShaderUniformBufferDescriptors.fs) ∧
        w.dstBinding = 1)) :=
  ⟨by decide,
    (uniform_buffer_bindings_fixed Scenario.env Scenario.renderer Scenario.linked Scenario.bound
      Scenario.maps Scenario.boundWrites Scenario.renderer (by decide)).2.1⟩

/-- C10: `parseUniforms` run on two programs that hold the same two compilers (the
reflections of the same two bytecodes) yields the same return value, the same
descriptor maps and the same mirrors, whatever maps and mirrors the programs held
before; running it again on its own result yields the same maps and mirrors; and the
maps it yields are those reflection builds from empty maps, so that no descriptor of
an earlier run survives, with mirrors sized from these maps alone. -/
theorem parseUniforms_depends_on_compilers_only (env : Env) (r₁ r₂ : VKRenderer)
    (p q : D3D11ShaderProgram)
    (hv : p.m_vertexShaderCompiler = q.m_vertexShaderCompiler)
    (hf : p.m_fragmentShaderCompiler = q.m_fragmentShaderCompiler) :
    (parseUniforms env r₁ p).map (fun x => (x.1, x.2.1.m_uniforms, x.2.1.uniformBytes)) =
        (parseUniforms env r₂ q).map (fun x => (x.1, x.2.1.m_uniforms, x.2.1.uniformBytes)) ∧
    (∀ res, parseUniforms env r₁ p = some res →
      ∃ again, parseUniforms env r₂ res.2.1 = some again ∧
        again.1 = res.1 ∧ again.2.1.m_uniforms = res.2.1.m_uniforms ∧
        again.2.1.uniformBytes = res.2.1.uniformBytes) ∧
    (∀ res, parseUniforms env r₁ p = some res →
      reflectUniforms env { p with m_uniforms := { vs := [], fs := [] } } =
        some res.2.1.m_uniforms ∧
      allocBytes res.2.1.m_uniforms = some res.2.1.uniformBytes) := by
  refine ⟨?_, ?_, ?_⟩
  · unfold parseUniforms
    rw [reflectUniforms_congr env hv hf]
    cases reflectUniforms env q with
    | none => rfl
    | some m =>
      simp only [Option.some_bind, allocUniformBytes]
      cases allocBytes m <;> rfl
  · intro res hres
    obtain ⟨h1, h2, h3, h4, h5, _⟩ := parseUniforms_some hres
    have hm : reflectUniforms env res.2.1 = some res.2.1.m_uniforms := by
      rw [reflectUniforms_congr env h4 h5]; exact h1
    obtain ⟨again, g1, g2, g3, g4, _⟩ := parseUniforms_of_reflect r₂ hm h3
    exact ⟨again, g1, by rw [g2, h2], g3, g4⟩
  · intro res hres
    obtain ⟨h1, _, h3, _⟩ := parseUniforms_some hres
    exact ⟨(reflectUniforms_congr env rfl rfl).trans h1, h3⟩

/-- C10 at a concrete input: the scenario's program holding the maps of an earlier
link of other bytecode reflects to the same maps and mirrors as the freshly linked
one. -/
theorem parseUniforms_depends_on_compilers_only_witness :
    Scenario.leftover.m_uniforms ≠ Scenario.linked.m_uniforms ∧
    (parseUniforms Scenario.env Scenario.renderer Scenario.leftover).map
        (fun x => (x.1, x.2.1.m_uniforms, x.2.1.uniformBytes)) =
      (parseUniforms Scenario.env Scenario.renderer Scenario.linked).map
        (fun x => (x.1, x.2.1.m_uniforms, x.2.1.uniformBytes)) ∧
    (parseUniforms Scenario.env Scenario.renderer Scenario.linked).map
        (fun x => (x.1, x.2.1.m_uniforms, x.2.1.uniformBytes)) =
      some (true, Scenario.maps,
        { vertex := [0, 0, 0, 0], fragment := [0, 0, 0, 0, 0, 0] }) :=
  ⟨by decide,
    (parseUniforms_depends_on_compilers_only Scenario.env Scenario.renderer Scenario.renderer
      Scenario.leftover Scenario.linked rfl rfl).1,
    by decide⟩

/-- C11, counterexample. First input: the vertex block member `intensity` (a float of 4
bytes) carries the offset decoration 4294967295. `createShaderProgram` links, the
descriptor it stores has location -1 and size 4, `allocUniformBytes` has left the
vertex stage a mirror of -1 + 4 = 3 bytes, the byte range of the descriptor starts
before the mirror, and the copy of its 4-byte value by `updateVkUniformBuffer` is
outside the mirror, so that the call is undefined. Second input: a descriptor with
location 4, size -4 and a value of 4 bytes; `allocUniformBytes` returns with an empty
vertex mirror, location + size = 0 is at most its length, and the copy (of a
`size_t` count of 2^64 - 4 bytes at offset 4) is again outside the mirror. -/
theorem wrapped_offset_range_outside_mirror :
    (createShaderProgram Scenario.envWrappedOffset Scenario.renderer Scenario.unlinked
        "v" "f").map
        (fun x => (x.1, x.2.1.m_uniforms.vs, x.2.1.m_vertexShaderUniformBytes,
          organizeUniformBytes Scenario.envWrappedOffset x.2.1.m_uniforms x.2.1.uniformBytes,
          (updateVkUniformBuffer Scenario.envWrappedOffset x.2.2 x.2.1 Scenario.fresh).isSome)) =
      some (true, [("intensity", Scenario.wrappedIntensity)], [0, 0, 0], none, false) ∧
    Scenario.wrappedIntensity.m_location = -1 ∧ Scenario.wrappedIntensity.m_sizeInBytes = 4 ∧
    copies Scenario.envWrappedOffset Scenario.wrappedIntensity ∧
    (allocUniformBytes Scenario.negativeSize).map
        (fun p => (p.m_uniforms.vs, p.m_vertexShaderUniformBytes,
          organizeUniformBytes Scenario.env p.m_uniforms p.uniformBytes,
          (updateVkUniformBuffer Scenario.env Scenario.renderer p Scenario.fresh).isSome)) =
      some ([("intensity", Scenario.shrunkIntensity)], [], none, false) ∧
    Scenario.shrunkIntensity.m_location + Scenario.shrunkIntensity.m_sizeInBytes = 0 ∧
    copies Scenario.env Scenario.shrunkIntensity := by
  refine ⟨rfl, by decide, by decide, by decide, by decide, by decide, by decide⟩

/-- C11 as amended: `allocUniformBytes` returns exactly when location + size of every
descriptor is a non-negative `i32` value. When it has returned, then for every
descriptor of either map whose location and size are non-negative, texture
descriptors included, location + size is at most the length of the mirror of the
descriptor's stage, and a copy of `size` bytes to that location from any value holding
at least `size` bytes is defined. Hence, when every descriptor that
`updateVkUniformBuffer` copies has a non-negative location and size and a value of at
least `size` bytes, every such copy on the mirrors left by `allocUniformBytes` is in
bounds and the copy loop returns. The stage of a descriptor (`m_shader`) is the stage
of the map holding it whenever the maps are built by `addUniform`. -/
theorem nonnegative_ranges_within_mirror (env : Env) (p : D3D11ShaderProgram) :
    ((allocUniformBytes p).isSome ↔
      ∀ it ∈ p.m_uniforms.vs ++ p.m_uniforms.fs,
        0 ≤ it.2.m_location + it.2.m_sizeInBytes ∧
          it.2.m_location + it.2.m_sizeInBytes < 2 ^ 31) ∧
    (∀ p', allocUniformBytes p = some p' →
      p'.m_uniforms = p.m_uniforms ∧
      (∀ it ∈ p.m_uniforms.vs ++ p.m_uniforms.fs,
        0 ≤ it.2.m_location → 0 ≤ it.2.m_sizeInBytes →
        it.2.m_location + it.2.m_sizeInBytes ≤ (p'.uniformBytes.get it.2.m_shader).length ∧
        ∀ value : List Byte, it.2.m_sizeInBytes ≤ value.length →
          ∃ out, memcpy (p'.uniformBytes.get it.2.m_shader) it.2.m_location
            value (toSizeT it.2.m_sizeInBytes) = some out) ∧
      ((∀ it ∈ p.m_uniforms.vs ++ p.m_uniforms.fs, copies env it.2 →
          0 ≤ it.2.m_location ∧ 0 ≤ it.2.m_sizeInBytes ∧
            it.2.m_sizeInBytes ≤ (getValue env it.2).length) →
        CopiesInBounds env p'.m_uniforms p'.uniformBytes ∧
        ∃ b, organizeUniformBytes env p'.m_uniforms p'.uniformBytes = some b)) ∧
    ((∀ it ∈ p.m_uniforms.vs, it.2.m_shader = ShaderType.VS) →
      (∀ it ∈ p.m_uniforms.fs, it.2.m_shader = ShaderType.FS) →
      ∀ s, ∀ it ∈ p.m_uniforms.get s, it.2.m_shader = s) := by
  refine ⟨⟨fun h => ?_, fun h => ?_⟩, fun p' hp' => ?_, ?_⟩
  · obtain ⟨p', hp'⟩ := Option.isSome_iff_exists.mp h
    exact allocBytes_sizable (allocUniformBytes_some hp').1
  · obtain ⟨p', hp', _⟩ := allocUniformBytes_get p h
    rw [hp']
    rfl
  · obtain ⟨hb, hmaps⟩ := allocUniformBytes_some hp'
    have hkey : ∀ it ∈ p.m_uniforms.vs ++ p.m_uniforms.fs,
        0 ≤ it.2.m_location → 0 ≤ it.2.m_sizeInBytes →
        it.2.m_sizeInBytes < 2 ^ 31 ∧
        it.2.m_location + it.2.m_sizeInBytes ≤
          (p'.uniformBytes.get it.2.m_shader).length := by
      intro it hit h0 h1
      have hs := allocBytes_sizable hb it hit
      have h2 := allocTarget_of_sizable hs
      have h3 := allocBytes_length_ge hb hit
      have h4 := hs.2
      constructor <;> omega
    refine ⟨hmaps, fun it hit h0 h1 => ?_, fun hall => ?_⟩
    · obtain ⟨h2, hle⟩ := hkey it hit h0 h1
      refine ⟨hle, fun value hv => ?_⟩
      apply memcpy_isSome _ _ _ _ h0
      · rw [toSizeT_of_nonneg h1 h2]; omega
      · rw [toSizeT_of_nonneg h1 h2]; omega
    · have hcib : CopiesInBounds env p'.m_uniforms p'.uniformBytes := by
        intro it hit hc
        rw [hmaps] at hit
        obtain ⟨h0, h1, hv⟩ := hall it hit hc
        obtain ⟨h2, hle⟩ := hkey it hit h0 h1
        exact ⟨h0, h1, h2, hle, hv⟩
      obtain ⟨b, hb', _⟩ := organizeUniformBytes_defined hcib
      exact ⟨hcib, b, hb'⟩
  · intro hvs hfs s it hit
    cases s
    · exact hvs it hit
    · exact hfs it hit

/-- C11 as amended, at a concrete input: in the scenario, after `intensity` has been
given a 4-byte value, `allocUniformBytes` returns, the range [0, 4) of `intensity`
lies within the 4-byte vertex mirror, the copy of the value into it is defined, and
the copy loop of `updateVkUniformBuffer` returns on the mirrors. -/
theorem nonnegative_ranges_within_mirror_witness :
    copies Scenario.env { Scenario.intensity with m_value := [0, 0, 128, 63] } ∧
    ∃ p', allocUniformBytes (Scenario.withIntensity [0, 0, 128, 63]) = some p' ∧
      (0 : Int) + 4 ≤ (p'.uniformBytes.get ShaderType.VS).length ∧
      (∃ out, memcpy (p'.uniformBytes.get ShaderType.VS) 0 [0, 0, 128, 63] (toSizeT 4) =
        some out) ∧
      ∃ b, organizeUniformBytes Scenario.env p'.m_uniforms p'.uniformBytes = some b := by
  have h := nonnegative_ranges_within_mirror Scenario.env (Scenario.withIntensity [0, 0, 128, 63])
  obtain ⟨p', hp'⟩ := Option.isSome_iff_exists.mp (h.1.mpr (by decide))
  obtain ⟨_, hrange, hloop⟩ := h.2.1 p' hp'
  obtain ⟨hle, hcopy⟩ := hrange
    ("intensity", { Scenario.intensity with m_value := [0, 0, 128, 63] }) (by decide)
    (by decide) (by decide)
  exact ⟨by decide, p', hp', hle, hcopy [0, 0, 128, 63] (by decide), (hloop (by decide)).2⟩

/-- C12: for a linked program whose copies are all in bounds, `updateVkUniformBuffer`
returns and afterwards the instance holds both device buffers, each with contents
equal to the mirror of its stage as the call leaves it and with that mirror's length
as size. The statement does not distinguish whether the call reallocated: the two
uploads follow the conditional reallocation unconditionally. -/
theorem update_uploads_mirrors (env : Env) (r : VKRenderer) (p : D3D11ShaderProgram)
    (uniformsInstance : UniformsInstance)
    (hlinked : p.m_isLinked = true)
    (hbounds : CopiesInBounds env p.m_uniforms p.uniformBytes) :
    ∃ p' inst' r',
      updateVkUniformBuffer env r p uniformsInstance = some (p', inst', r') ∧
      ∀ s, ∃ buffer, inst'.buffer s = some buffer ∧
        buffer.contents = p'.uniformBytes.get s ∧
        buffer.getSize = (p'.uniformBytes.get s).length := by
  obtain ⟨b, hb, _⟩ := organizeUniformBytes_defined hbounds
  obtain ⟨inst', r', hup, hbuf⟩ :=
    ensureAndUpload_uploads env r (p.setUniformBytes b) uniformsInstance
  refine ⟨p.setUniformBytes b, inst', r', ?_, hbuf⟩
  rw [updateVkUniformBuffer_linked env r p uniformsInstance hlinked, hb]
  simp only [Option.some_bind, hup, Option.map_some']

/-- C12 at two concrete inputs: with a fresh instance (the call reallocates) and with
the instance of an earlier bind after `intensity` was set to `00 00 00 3f` (the call
allocates nothing), the vertex buffer holds the vertex mirror `00 00 00 3f`. -/
theorem update_uploads_mirrors_witness :
    (∃ p' inst' r' buffer,
      updateVkUniformBuffer Scenario.env Scenario.renderer
          (Scenario.withIntensity [0, 0, 0, 63]) Scenario.fresh = some (p', inst', r') ∧
      inst'.buffer ShaderType.VS = some buffer ∧ buffer.contents = p'.uniformBytes.get .VS) ∧
    (∃ p' inst' r' buffer,
      updateVkUniformBuffer Scenario.env Scenario.renderer
          (Scenario.withIntensity [0, 0, 0, 63]) Scenario.bound = some (p', inst', r') ∧
      inst'.buffer ShaderType.VS = some buffer ∧ buffer.contents = p'.uniformBytes.get .VS) ∧
    (updateVkUniformBuffer Scenario.env Scenario.renderer
        (Scenario.withIntensity [0, 0, 0, 63]) Scenario.bound).map
        (fun x => (x.1.m_vertexShaderUniformBytes,
          (x.2.1.buffer ShaderType.VS).map VKBuffer.contents, x.2.2.events)) =
      some ([0, 0, 0, 63], some [0, 0, 0, 63], []) := by
  refine ⟨?_, ?_, by decide⟩
  · obtain ⟨p', inst', r', h1, h2⟩ :=
      update_uploads_mirrors Scenario.env Scenario.renderer
        (Scenario.withIntensity [0, 0, 0, 63]) Scenario.fresh rfl (by decide)
    obtain ⟨buffer, h3, h4, _⟩ := h2 .VS
    exact ⟨p', inst', r', buffer, h1, h3, h4⟩
  · obtain ⟨p', inst', r', h1, h2⟩ :=
      update_uploads_mirrors Scenario.env Scenario.renderer
        (Scenario.withIntensity [0, 0, 0, 63]) Scenario.bound rfl (by decide)
    obtain ⟨buffer, h3, h4, _⟩ := h2 .VS
    exact ⟨p', inst', r', buffer, h1, h3, h4⟩

/-- C13, counterexample: a uniform block with two members that are both reported under
the name `v`, at the offsets 0 and 16. After `addUniform` the vertex map holds one
descriptor under `v`, the one of member 1 (location 16): the descriptor found under
the name of member 0 does not have member 0's offset 0. -/
theorem later_member_replaces_same_name :
    Scenario.blockCompiler.get_member_name Scenario.pairBlock.self 0 = "v" ∧
    Scenario.blockCompiler.type_struct_member_offset Scenario.pairBlock 0 = 0 ∧
    (addUniform Scenario.env Scenario.pairProgram { vs := [], fs := [] }
        { id := 23, base_type_id := 13, name := "Block" } ShaderType.VS).map
        (fun m => (m.vs.length, (UniformMap.find m.vs "v").map (fun d => d.m_location))) =
      some (1, some 16) := by
  refine ⟨by decide, by decide, by decide⟩

/-- C13 as amended: let a uniform-block resource be reflected by `addUniform` for a
stage whose compiler is present, every member of the block having a mapped type with a
non-zero bytes-per-element (the count is a division by it). Then `addUniform` returns,
and for every member i whose name is not the name of a later member of the block, the
stage's mapping contains under the member's name a descriptor with that name, the
reflected stage, the declared member size, the mapped type of the member, count =
size divided by the bytes-per-element of that type, and location = the member's
declared offset; size and offset are stored as `i32` (they are the declared values
whenever these are below 2^31, and the count is then the integer quotient for a
positive bytes-per-element). A member whose name a later member bears is replaced by
the last member of that name. -/
theorem block_member_descriptor (env : Env) (p : D3D11ShaderProgram) (m : UniformMaps)
    (resource : Resource) (shaderType : ShaderType) (compiler : Compiler) (i : Nat)
    (hcompiler : p.compiler shaderType = some compiler)
    (hblock : (compiler.get_type resource.base_type_id).basetype ≠ BaseType.SampledImage)
    (helem : ∀ t ∈ (compiler.get_type resource.base_type_id).member_types,
      env.mapUniformTypeSize (env.mapUniformType (compiler.get_type t)) ≠ 0)
    (hi : i < (compiler.get_type resource.base_type_id).member_types.length)
    (hlast : ∀ j, i < j → j < (compiler.get_type resource.base_type_id).member_types.length →
      compiler.get_member_name (compiler.get_type resource.base_type_id).self j ≠
        compiler.get_member_name (compiler.get_type resource.base_type_id).self i) :
    ∃ m' desc,
      addUniform env p m resource shaderType = some m' ∧
      UniformMap.find (m'.get shaderType)
          (compiler.get_member_name (compiler.get_type resource.base_type_id).self i) =
        some desc ∧
      desc.m_name = compiler.get_member_name (compiler.get_type resource.base_type_id).self i ∧
      desc.m_shader = shaderType ∧
      desc.m_sizeInBytes =
        wrapI32 (compiler.get_declared_struct_member_size
          (compiler.get_type resource.base_type_id) i) ∧
      desc.m_type =
        env.mapUniformType
          (compiler.get_type (compiler.get_type resource.base_type_id).member_types[i]) ∧
      desc.m_count =
        wrapI32 (Int.tdiv desc.m_sizeInBytes (env.mapUniformTypeSize desc.m_type)) ∧
      desc.m_location =
        wrapI32 (compiler.type_struct_member_offset (compiler.get_type resource.base_type_id) i) ∧
      ((compiler.get_declared_struct_member_size (compiler.get_type resource.base_type_id) i :
          Int) < 2 ^ 31 →
        desc.m_sizeInBytes =
          compiler.get_declared_struct_member_size (compiler.get_type resource.base_type_id) i ∧
        (0 < env.mapUniformTypeSize desc.m_type →
          desc.m_count =
            (compiler.get_declared_struct_member_size (compiler.get_type resource.base_type_id) i :
              Int) / env.mapUniformTypeSize desc.m_type)) ∧
      ((compiler.type_struct_member_offset (compiler.get_type resource.base_type_id) i : Int) <
          2 ^ 31 →
        desc.m_location =
          compiler.type_struct_member_offset (compiler.get_type resource.base_type_id) i) := by
  generalize htype : compiler.get_type resource.base_type_id = type at *
  have hall : ∀ im ∈ type.member_types.enum,
      env.mapUniformTypeSize (env.mapUniformType (compiler.get_type im.2)) ≠ 0 := by
    intro im him
    obtain ⟨_, _, hx⟩ := List.mem_enumFrom (x := im.2) (i := im.1) him
    apply helem
    rw [hx]
    exact List.getElem_mem _
  rw [addUniform_block hcompiler (by rw [htype]; exact hblock), htype]
  rw [enum_split type.member_types i hi] at hall ⊢
  obtain ⟨m1, hm1⟩ := memberFold_defined env compiler type shaderType
    (type.member_types.take i).enum m
    (fun im him => hall im (List.mem_append_left _ him))
  have hdiv := hall (i, type.member_types[i]) (List.mem_append_right _ (List.mem_cons_self _ _))
  have hstep := memberUniform_some env compiler type shaderType i type.member_types[i] hdiv
  obtain ⟨m', hm'⟩ := memberFold_defined env compiler type shaderType
    (List.enumFrom (i + 1) (type.member_types.drop (i + 1)))
    (m1.assign shaderType (compiler.get_member_name type.self i)
      { m_name := compiler.get_member_name type.self i
        m_shader := shaderType
        m_sizeInBytes := wrapI32 (compiler.get_declared_struct_member_size type i)
        m_type := env.mapUniformType (compiler.get_type type.member_types[i])
        m_count := wrapI32 (Int.tdiv (wrapI32 (compiler.get_declared_struct_member_size type i))
          (env.mapUniformTypeSize (env.mapUniformType (compiler.get_type type.member_types[i]))))
        m_location := wrapI32 (compiler.type_struct_member_offset type i)
        m_value := [] })
    (fun im him => hall im (List.mem_append_right _ (List.mem_cons_of_mem _ him)))
  have hfind := memberFold_keeps (k := compiler.get_member_name type.self i) _ _ _ hm'
    (by
      intro im him
      obtain ⟨h1, h2, _⟩ := List.mem_enumFrom (x := im.2) (i := im.1) him
      apply hlast im.1 (by omega)
      rw [List.length_drop] at h2
      omega)
  rw [UniformMaps.get_assign_same, UniformMap.find_assign_same] at hfind
  refine ⟨m', _, ?_, hfind, rfl, rfl, rfl, rfl, rfl, rfl, ?_, ?_⟩
  · rw [List.foldlM_append, hm1]
    simp only [Option.bind_eq_bind, Option.some_bind, List.foldlM_cons]
    unfold memberStep at hm' ⊢
    rw [hstep]
    simp only [Option.map_some', Option.some_bind]
    exact hm'
  · intro hlt
    have h0 : (0 : Int) ≤ compiler.get_declared_struct_member_size type i := Int.ofNat_nonneg _
    refine ⟨wrapI32_of_inRange h0 hlt, fun hpos => ?_⟩
    show wrapI32 (Int.tdiv (wrapI32 _) _) = _
    rw [wrapI32_of_inRange h0 hlt]
    exact tdiv_count h0 hlt hpos
  · intro hlt
    exact wrapI32_of_inRange (Int.ofNat_nonneg _) hlt

/-- C13 as amended, at a concrete input: member 1 of the block of the counterexample,
the last member named `v`, is found under `v` with size 4, offset 16 and count 1. -/
theorem block_member_descriptor_witness :
    ∃ m' desc,
      addUniform Scenario.env Scenario.pairProgram { vs := [], fs := [] }
          { id := 23, base_type_id := 13, name := "Block" } ShaderType.VS = some m' ∧
      UniformMap.find (m'.get ShaderType.VS) "v" = some desc ∧
      desc.m_shader = ShaderType.VS ∧ desc.m_sizeInBytes = 4 ∧ desc.m_location = 16 ∧
      desc.m_type = ShaderParamType.SPT_FLOAT ∧ desc.m_count = 1 := by
  obtain ⟨m', desc, h1, h2, _, h4, _, h6, _, _, h9, h10⟩ :=
    block_member_descriptor Scenario.env Scenario.pairProgram { vs := [], fs := [] }
      { id := 23, base_type_id := 13, name := "Block" } ShaderType.VS Scenario.blockCompiler 1
      rfl (by decide) (by decide) (by decide)
      (fun j h1 h2 => absurd h2 (by
        have : (Scenario.blockCompiler.get_type 13).member_types.length = 2 := rfl
        rw [this]; omega))
  have hs := h9 (by decide)
  have hty : desc.m_type = ShaderParamType.SPT_FLOAT := h6
  have hcount := hs.2 (by rw [hty]; decide)
  rw [hty] at hcount
  exact ⟨m', desc, h1, h2, h4, hs.1, h10 (by decide), hty, hcount⟩

/-- C14, the code at the failing input: the vertex bytecode declares, besides its
uniform block, a combined image sampler `u_Height` at binding 3. After
`createShaderProgram` the vertex map holds the block member only and nothing under
`u_Height`, while the fragment sampler `u_Tex` is in the fragment map with type
texture, count 1, size 4 and location 2: `parseUniforms` walks the sampled images of
the fragment stage only. -/
theorem vertex_sampler_is_not_reflected :
    Scenario.vsSamplerCompiler.get_shader_resources.sampled_images =
      [{ id := 22, base_type_id := 12, name := "u_Height" }] ∧
    (createShaderProgram Scenario.envVertexSampler Scenario.renderer Scenario.unlinked
        "v" "f").map
        (fun x => (x.1, x.2.1.m_uniforms.vs.map Prod.fst,
          UniformMap.find x.2.1.m_uniforms.vs "u_Height",
          UniformMap.find x.2.1.m_uniforms.fs "u_Height",
          UniformMap.find x.2.1.m_uniforms.fs "u_Tex")) =
      some (true, ["intensity"], none, none, some Scenario.uTex) := by
  refine ⟨rfl, by decide⟩

/-- C15: the binding list built by `createVkDescriptorSetLayout` is exactly: the
uniform-buffer binding 0 with the vertex flag if and only if the vertex map holds a
non-texture descriptor, then the uniform-buffer binding 1 with the fragment flag if
and only if the fragment map holds one, then one combined-image-sampler binding per
texture descriptor, in iteration order, whose binding index is the descriptor's
location (as `uint32`, the location itself when it is non-negative). Its length is the
sum of the three counts, and if the texture locations are `i32` values different from
0 and 1 and pairwise distinct, the binding indices of the list are pairwise
distinct. -/
theorem layout_bindings_exact (env : Env) (r : VKRenderer) (p : D3D11ShaderProgram) :
    (createVkDescriptorSetLayout env r p).1.m_layoutBindings =
      (if hasOrdinary p.m_uniforms.vs then [uboLayoutBinding 0 StageFlag.VERTEX_BIT] else []) ++
        (if hasOrdinary p.m_uniforms.fs then [uboLayoutBinding 1 StageFlag.FRAGMENT_BIT] else []) ++
        (textureUniforms p.m_uniforms).map samplerLayoutBinding ∧
    (∀ u : Uniform,
      (samplerLayoutBinding u).descriptorType = DescriptorType.COMBINED_IMAGE_SAMPLER ∧
      (samplerLayoutBinding u).binding = toU32 u.m_location ∧
      (0 ≤ u.m_location → u.m_location < 2 ^ 32 →
        ((samplerLayoutBinding u).binding : Int) = u.m_location)) ∧
    (∀ (binding : Nat) (stageFlags : StageFlag),
      (uboLayoutBinding binding stageFlags).descriptorType = DescriptorType.UNIFORM_BUFFER ∧
      (uboLayoutBinding binding stageFlags).binding = binding ∧
      (uboLayoutBinding binding stageFlags).stageFlags = stageFlags) ∧
    (createVkDescriptorSetLayout env r p).1.m_layoutBindings.length =
      (if hasOrdinary p.m_uniforms.vs then 1 else 0) +
        (if hasOrdinary p.m_uniforms.fs then 1 else 0) +
        (textureUniforms p.m_uniforms).length ∧
    ((∀ u ∈ textureUniforms p.m_uniforms,
        -2 ^ 31 ≤ u.m_location ∧ u.m_location < 2 ^ 31 ∧ u.m_location ≠ 0 ∧ u.m_location ≠ 1) →
      ((textureUniforms p.m_uniforms).map (fun u => u.m_location)).Nodup →
      ((createVkDescriptorSetLayout env r p).1.m_layoutBindings.map
        (fun b => b.binding)).Nodup) := by
  have heq : (createVkDescriptorSetLayout env r p).1.m_layoutBindings =
      (if hasOrdinary p.m_uniforms.vs then [uboLayoutBinding 0 StageFlag.VERTEX_BIT] else []) ++
        (if hasOrdinary p.m_uniforms.fs then [uboLayoutBinding 1 StageFlag.FRAGMENT_BIT] else []) ++
        (textureUniforms p.m_uniforms).map samplerLayoutBinding := by
    show layoutBindings p.m_uniforms = _
    rw [layoutBindings_eq, uboBindings_eq]
  refine ⟨heq, fun u => ⟨rfl, rfl, fun h0 h1 => toU32_of_nonneg h0 h1⟩,
    fun _ _ => ⟨rfl, rfl, rfl⟩, ?_, ?_⟩
  · rw [heq]
    by_cases hv : hasOrdinary p.m_uniforms.vs <;> by_cases hf : hasOrdinary p.m_uniforms.fs <;>
      simp [hv, hf] <;> omega
  · intro hloc hnd
    rw [heq, List.map_append, List.nodup_append]
    have htex : ((textureUniforms p.m_uniforms).map samplerLayoutBinding).map
        (fun b => b.binding) = (textureUniforms p.m_uniforms).map (fun u => toU32 u.m_location) := by
      rw [List.map_map]
      rfl
    rw [htex]
    refine ⟨?_, ?_, ?_⟩
    · by_cases hv : hasOrdinary p.m_uniforms.vs <;> by_cases hf : hasOrdinary p.m_uniforms.fs <;>
        simp [hv, hf, uboLayoutBinding]
    · have := List.Nodup.map_on (f := fun x : Int => toU32 x)
        (l := (textureUniforms p.m_uniforms).map (fun u => u.m_location))
        (by
          intro x hx y hy hxy
          obtain ⟨u, hu, rfl⟩ := List.mem_map.mp hx
          obtain ⟨v, hv, rfl⟩ := List.mem_map.mp hy
          obtain ⟨a0, a1, _, _⟩ := hloc u hu
          obtain ⟨b0, b1, _, _⟩ := hloc v hv
          exact toU32_inj a0 a1 b0 b1 hxy) hnd
      rw [List.map_map] at this
      exact this
    · intro x hx hx'
      obtain ⟨u, hu, rfl⟩ := List.mem_map.mp hx'
      obtain ⟨a0, a1, a2, a3⟩ := hloc u hu
      have hne := toU32_ne_small a0 a1 a2 a3
      have hx01 : toU32 u.m_location = 0 ∨ toU32 u.m_location = 1 := by
        by_cases hv : hasOrdinary p.m_uniforms.vs <;>
          by_cases hf : hasOrdinary p.m_uniforms.fs <;>
          simp [hv, hf, uboLayoutBinding] at hx <;> omega
      rcases hx01 with h | h
      · exact hne.1 h
      · exact hne.2 h

/-- C15 at a concrete input: the layout of the scenario has the bindings 0 and 2. -/
theorem layout_bindings_exact_witness :
    (createVkDescriptorSetLayout Scenario.env Scenario.renderer
        Scenario.linked).1.m_layoutBindings.map (fun b => b.binding) = [0, 2] ∧
    ((createVkDescriptorSetLayout Scenario.env Scenario.renderer
        Scenario.linked).1.m_layoutBindings.map (fun b => b.binding)).Nodup :=
  ⟨by decide,
    (layout_bindings_exact Scenario.env Scenario.renderer Scenario.linked).2.2.2.2
      (by decide) (by decide)⟩

/-- C16, counterexample: locations and sizes are non-negative, the fragment map holds
one sampler of size 4 at binding 2147483647. The maximum of location + size over the
fragment descriptors is 2147483651, which is not an `i32` value: the signed sum that
`allocUniformBytes` stores in `i32 bytes` overflows, and the call does not return with
a mirror (where the sum wraps, to -2147483645, the loop condition compares it as a
`size_t` above 2^63 and the loop cannot end by its condition). -/
theorem sum_beyond_i32_is_not_sized :
    (∀ it ∈ Scenario.farSampler.m_uniforms.vs ++ Scenario.farSampler.m_uniforms.fs,
      0 ≤ it.2.m_location ∧ 0 ≤ it.2.m_sizeInBytes) ∧
    maxOf ((descriptorsOf Scenario.farSampler.m_uniforms ShaderType.FS).map
      (fun u => (u.m_location + u.m_sizeInBytes).toNat)) = 2147483651 ∧
    addI32 2147483647 4 = none ∧
    (allocUniformBytes Scenario.farSampler).isSome = false := by
  refine ⟨by decide, by decide, by decide, by decide⟩

/-- C16 as amended: for every pair of per-stage descriptor mappings with non-negative
locations and sizes whose sum location + size stays below 2^31 for every descriptor,
`allocUniformBytes` returns and leaves each stage's mirror equal to the all-zero byte
sequence whose length is the maximum of location + size over all descriptors of that
stage, texture descriptors included (0 if the stage has none). The result does not
depend on the mirrors held before nor on the iteration order of the maps (any program
whose maps are permutations of these gets the same mirrors), and each growing loop,
its target being non-negative, ends because its condition has become false: running
it with any larger bound on its iterations gives the same bytes. -/
theorem mirror_is_zero_filled_maximum (p : D3D11ShaderProgram) (s : ShaderType)
    (hrange : ∀ it ∈ p.m_uniforms.vs ++ p.m_uniforms.fs,
      0 ≤ it.2.m_location ∧ 0 ≤ it.2.m_sizeInBytes ∧
        it.2.m_location + it.2.m_sizeInBytes < 2 ^ 31) :
    (∃ p', allocUniformBytes p = some p' ∧ p'.m_uniforms = p.m_uniforms ∧
      p'.uniformBytes.get s =
        List.replicate
          (maxOf ((descriptorsOf p.m_uniforms s).map
            (fun u => (u.m_location + u.m_sizeInBytes).toNat))) 0) ∧
    (∀ q : D3D11ShaderProgram, q.m_uniforms.vs.Perm p.m_uniforms.vs →
      q.m_uniforms.fs.Perm p.m_uniforms.fs →
      (allocUniformBytes q).map D3D11ShaderProgram.uniformBytes =
        (allocUniformBytes p).map D3D11ShaderProgram.uniformBytes) ∧
    (∀ (l : List Byte) (bytes : Int) (n : Nat), 0 ≤ bytes → toSizeT bytes - l.length ≤ n →
      growTo l bytes = some (pushZeros n l (toSizeT bytes)) ∧
      ¬ (pushZeros n l (toSizeT bytes)).length < toSizeT bytes) ∧
    ((∀ it ∈ p.m_uniforms.vs, it.2.m_shader = ShaderType.VS) →
      (∀ it ∈ p.m_uniforms.fs, it.2.m_shader = ShaderType.FS) →
      descriptorsOf p.m_uniforms s = (p.m_uniforms.get s).map Prod.snd) := by
  have hsizable : ∀ it ∈ p.m_uniforms.vs ++ p.m_uniforms.fs, sizable it.2 := by
    intro it hit
    obtain ⟨h0, h1, h2⟩ := hrange it hit
    exact ⟨by omega, h2⟩
  refine ⟨?_, fun q hv hf => ?_, fun l bytes n h0 hn => ?_,
    fun hvs hfs => descriptorsOf_of_stages hvs hfs s⟩
  · obtain ⟨p', h1, h2, h3⟩ := allocUniformBytes_get p hsizable
    exact ⟨p', h1, h2, h3 s⟩
  · unfold allocUniformBytes
    rw [allocBytes_perm hv hf]
    cases allocBytes p.m_uniforms <;> rfl
  · rw [pushZeros_enough n l _ hn, growTo_eq l bytes h0, List.length_append,
      List.length_replicate]
    exact ⟨rfl, by omega⟩

/-- C16 as amended, at a concrete input: `allocUniformBytes` returns on the scenario and
the fragment mirror it leaves is six zero bytes. -/
theorem mirror_is_zero_filled_maximum_witness :
    (∀ it ∈ Scenario.linked.m_uniforms.vs ++ Scenario.linked.m_uniforms.fs,
      0 ≤ it.2.m_location ∧ 0 ≤ it.2.m_sizeInBytes ∧
        it.2.m_location + it.2.m_sizeInBytes < 2 ^ 31) ∧
    ∃ p', allocUniformBytes Scenario.linked = some p' ∧
      p'.uniformBytes.get ShaderType.FS = List.replicate 6 0 := by
  refine ⟨by decide, ?_⟩
  obtain ⟨p', h1, _, h3⟩ :=
    (mirror_is_zero_filled_maximum Scenario.linked ShaderType.FS (by decide)).1
  exact ⟨p', h1, by rw [h3]; decide⟩


end Echo
